import Mathlib

/-!
FOTA pipeline of the LwM2M client sample

Shallow embedding of `samples/net/lwm2m_client/src/settings.c` (the durable
update counter) and of the firmware callbacks and the boot-time image check of
`samples/net/lwm2m_client/src/lwm2m-client.c`.

The C module state (the statics `uc`, `last_offset`, `percent_downloaded`,
`bytes_downloaded`, `dfu_ctx`) is one explicit record, `World`, passed through
every function.  Calls that leave the two files (bootloader, flash driver,
settings backend, LwM2M engine, reboot work item) are recorded, in call order,
in `World.trace`; what they return is read from an `Env` record, so that
every result below holds for all behaviours of those collaborators.
-/

namespace Fota

/-! ## Constants -/

/-- Value of `EIO` in the C library's errno.h. -/
def EIO : Int := 5

/-- Value of `ENODEV` in the C library's errno.h. -/
def ENODEV : Int := 19

/-- Value of `EINVAL` in the C library's errno.h. -/
def EINVAL : Int := 22

/-- Number of values of a 32-bit machine word (`uint32_t`, `int`). -/
def WORD32 : Nat := 4294967296

/-- The 32-bit pattern of the C literal `-1` (all ones). -/
def MINUS_ONE : Nat := 4294967295

/-- Conversion of a value to `uint32_t`. -/
def to_uint32 (x : Nat) : Nat := x % WORD32

/-- Value of a 32-bit pattern read as a two's complement `int`. -/
def to_int32 (x : Nat) : Int :=
  if x % WORD32 < 2147483648 then ((x % WORD32 : Nat) : Int)
  else ((x % WORD32 : Nat) : Int) - 4294967296

/-- Build-time configuration: the geometry of flash bank 1 (`image_1`), the
erase-block size of the flash device, the erase policy
(`CONFIG_FOTA_ERASE_PROGRESSIVELY`) and the signedness of the update-counter
fields.  `FLASH_BANK1_OFFSET` stands for both `FLASH_AREA_OFFSET(image_1)` and
`DT_FLASH_AREA_IMAGE_1_OFFSET`, two spellings of the offset of the same
partition.  Offsets and sizes are natural numbers: flash addresses are taken
to fit the machine word, so the address arithmetic of the erase loop does not
wrap. -/
structure Config where
  FLASH_BANK1_OFFSET : Nat
  FLASH_BANK1_SIZE : Nat
  DT_FLASH_ERASE_BLOCK_SIZE : Nat
  CONFIG_FOTA_ERASE_PROGRESSIVELY : Bool
  counter_signed : Bool
  erase_block_pos : 0 < DT_FLASH_ERASE_BLOCK_SIZE

/-! ## Update counter (settings.c) -/

/-- Modelled from the spec: `struct update_counter`, declared in `settings.h`,
which is not among the sources.  The spec gives the persisted record as a
fixed-size blob of two 32-bit fields, `current` and `update`, with `-1` in
`update` meaning that no update is pending; `settings.c` assigns a `uint32_t`
to either field.  Each field holds its 32-bit pattern (`-1` is `MINUS_ONE`,
`to_int32` gives the value of a pattern read as an `int`).  The C types of
the fields are not in the sources; they matter only for the ordering
comparison, see `counter_gt` and `Config.counter_signed`. -/
structure update_counter where
  current : Nat
  update : Nat
deriving DecidableEq

/-- Both fields are 32-bit patterns. -/
def update_counter.wf (c : update_counter) : Prop :=
  c.current < WORD32 ∧ c.update < WORD32

instance (c : update_counter) : Decidable c.wf := by
  unfold update_counter.wf
  exact inferInstance

/-- Selector of `fota_update_counter_update` (`update_counter_t`). -/
inductive update_counter_t where
  | COUNTER_CURRENT
  | COUNTER_UPDATE
deriving DecidableEq

/-- The C comparison `a > b` of two counter fields.  With `int` fields
(`signed = true`) the two patterns are compared as two's complement values;
with a 32-bit unsigned field on either side (the spec writes the blob as
`current: u32, update: i32`) the usual arithmetic conversions make it a
comparison of the patterns themselves.  The tests `!= -1` and `==` of the
source are comparisons of patterns under either reading. -/
def counter_gt (signed : Bool) (a b : Nat) : Bool :=
  if signed then decide (to_int32 a > to_int32 b) else decide (a > b)

/-- Result codes written to the firmware object's "update result" resource
(`5/0/5`); only the two the sample writes. -/
inductive UpdateResult where
  | RESULT_SUCCESS
  | RESULT_UPDATE_FAILED
deriving DecidableEq

/-- Calls made to code outside the two files, in the order they are made. -/
inductive Event where
  | boot_write_img_confirmed
  | boot_invalidate_slot1
  | boot_erase_img_bank
  | flash_img_init
  | flash_erase (offset : Nat) (size : Nat)
  | flash_img_buffered_write (len : Nat) (flush : Bool)
  | settings_save_one (value : update_counter)
  | boot_request_upgrade (permanent : Bool)
  | k_delayed_work_submit
  | lwm2m_engine_set_u8 (result : UpdateResult)
  | log_percent (percent : Nat)
deriving DecidableEq

/-- What the collaborators return.  `flash_erase` is indexed by the erased
offset, `flash_img_buffered_write` by the write position before the call,
the length and the flush flag (it yields the return code and the new
`dfu_ctx.bytes_written`), `settings_save_one` by the record being saved. -/
structure Env where
  device_get_binding : Bool
  boot_is_img_confirmed : Bool
  boot_write_img_confirmed : Int
  boot_invalidate_slot1 : Int
  boot_erase_img_bank : Int
  flash_erase : Nat → Int
  flash_img_buffered_write : Nat → Nat → Bool → Int × Nat
  settings_save_one : update_counter → Int

/-- The module state of the two files plus the trace of outside calls. -/
structure World where
  uc : update_counter
  last_offset : Nat
  percent_downloaded : Nat
  bytes_downloaded : Nat
  dfu_bytes_written : Nat
  trace : List Event
deriving DecidableEq

/-- Append one outside call to the trace. -/
def World.emit (w : World) (e : Event) : World :=
  { w with trace := w.trace ++ [e] }

/-- Embeds `fota_update_counter_read`: copies `uc` out and returns 0. -/
def fota_update_counter_read (w : World) : Int × update_counter :=
  (0, w.uc)

/-- Embeds `fota_update_counter_update`: the selected field of `uc` is
overwritten first, then the whole record is handed to `settings_save_one`,
whose return code is the result.  `new_value` is a `uint32_t` parameter. -/
def fota_update_counter_update (env : Env) (w : World) (type : update_counter_t)
    (new_value : Nat) : Int × World :=
  let new_value := to_uint32 new_value
  let uc : update_counter :=
    if type = update_counter_t.COUNTER_UPDATE then { w.uc with update := new_value }
    else { w.uc with current := new_value }
  let w := { w with uc := uc }
  (env.settings_save_one uc, w.emit (Event.settings_save_one uc))

/-! ## Commit (lwm2m-client.c, firmware_update_cb) -/

/-- Embeds `firmware_update_cb`. -/
def firmware_update_cb (env : Env) (w : World) : Int × World :=
  let r := fota_update_counter_read w
  if r.1 ≠ 0 then (r.1, w)
  else
    let update_counter := r.2
    let r := fota_update_counter_update env w update_counter_t.COUNTER_UPDATE
      (update_counter.current + 1)
    if r.1 ≠ 0 then (r.1, r.2)
    else
      let w := r.2.emit (Event.boot_request_upgrade false)
      let w := w.emit Event.k_delayed_work_submit
      (0, w)

/-! ## Boot-time image check (lwm2m-client.c, lwm2m_image_init) -/

/-- The block of `lwm2m_image_init` that resets bank 1 after confirming the
image: `boot_invalidate_slot1` under `CONFIG_FOTA_ERASE_PROGRESSIVELY`,
`boot_erase_img_bank(FLASH_BANK1_ID)` otherwise. -/
def reset_bank1 (cfg : Config) (env : Env) (w : World) : Int × World :=
  if cfg.CONFIG_FOTA_ERASE_PROGRESSIVELY then
    (env.boot_invalidate_slot1, w.emit Event.boot_invalidate_slot1)
  else
    (env.boot_erase_img_bank, w.emit Event.boot_erase_img_bank)

/-- The closing block of `lwm2m_image_init` ("Check if a firmware update
status needs to be reported"), followed by `return ret`. -/
def report_update_status (cfg : Config) (w : World) (counter : update_counter)
    (ret : Int) : Int × World :=
  if counter.update ≠ MINUS_ONE ∧ counter.current = counter.update then
    (ret, w.emit (Event.lwm2m_engine_set_u8 UpdateResult.RESULT_SUCCESS))
  else if counter_gt cfg.counter_signed counter.update counter.current then
    (ret, w.emit (Event.lwm2m_engine_set_u8 UpdateResult.RESULT_UPDATE_FAILED))
  else
    (ret, w)

/-- Embeds `lwm2m_image_init`.  `log_img_ver` only formats the version string
of the running image, which none of the embedded functions reads, and is left
out. -/
def lwm2m_image_init (cfg : Config) (env : Env) (w : World) : Int × World :=
  if env.device_get_binding = false then (-ENODEV, w)
  else
    let r := fota_update_counter_read w
    if r.1 ≠ 0 then (r.1, w)
    else
      let counter := r.2
      let image_ok := env.boot_is_img_confirmed
      if image_ok = false then
        let w := w.emit Event.boot_write_img_confirmed
        let ret := env.boot_write_img_confirmed
        if ret ≠ 0 then (ret, w)
        else
          let r := reset_bank1 cfg env w
          if r.1 ≠ 0 then (r.1, r.2)
          else
            let w := r.2
            if counter.update ≠ MINUS_ONE then
              let r := fota_update_counter_update env w update_counter_t.COUNTER_CURRENT
                counter.update
              if r.1 ≠ 0 then (r.1, r.2)
              else
                let w := r.2
                let r := fota_update_counter_read w
                if r.1 ≠ 0 then (r.1, w)
                else report_update_status cfg w r.2 r.1
            else report_update_status cfg w counter r.1
      else report_update_status cfg w counter r.1

/-! ## Block receiver (lwm2m-client.c, firmware_block_received_cb) -/

/-- The `cleanup:` label of `firmware_block_received_cb`. -/
def cleanup (cfg : Config) (w : World) (ret : Int) : Int × World :=
  let w := if cfg.CONFIG_FOTA_ERASE_PROGRESSIVELY then
      { w with last_offset := cfg.FLASH_BANK1_OFFSET }
    else w
  (ret, { w with bytes_downloaded := 0, percent_downloaded := 0 })

/-- The first-block step (`bytes_downloaded == 0`): `flash_img_init`, which
restarts the buffered-write position, then the session-start erase. -/
def session_start (cfg : Config) (env : Env) (w : World) : Int × World :=
  let w := { w.emit Event.flash_img_init with dfu_bytes_written := 0 }
  if cfg.CONFIG_FOTA_ERASE_PROGRESSIVELY then
    (env.boot_invalidate_slot1, w.emit Event.boot_invalidate_slot1)
  else
    (env.boot_erase_img_bank, w.emit Event.boot_erase_img_bank)

/-- The progressive-erase `while` loop.  Each iteration erases the block at
`last_offset`, advances `last_offset` by one erase block and leaves the loop
with the error when the erase failed.  `fuel` bounds the iterations; `none`
means the bound was hit with the loop condition still true. -/
def erase_loop (cfg : Config) (env : Env) : Nat → World → Option (Int × World)
  | fuel, w =>
    if w.last_offset <
        cfg.FLASH_BANK1_OFFSET + w.dfu_bytes_written + cfg.DT_FLASH_ERASE_BLOCK_SIZE then
      match fuel with
      | 0 => none
      | fuel + 1 =>
        let ret := env.flash_erase w.last_offset
        let w := w.emit (Event.flash_erase w.last_offset cfg.DT_FLASH_ERASE_BLOCK_SIZE)
        let w := { w with last_offset := w.last_offset + cfg.DT_FLASH_ERASE_BLOCK_SIZE }
        if ret ≠ 0 then some (ret, w) else erase_loop cfg env fuel w
    else some (0, w)

/-- Iterations that always suffice for `erase_loop`: the distance from
`last_offset` to the loop bound (every iteration advances by at least 1). -/
def erase_fuel (cfg : Config) (w : World) : Nat :=
  cfg.FLASH_BANK1_OFFSET + w.dfu_bytes_written + cfg.DT_FLASH_ERASE_BLOCK_SIZE - w.last_offset

/-- The percentage computed for the progress display: `uint32_t * int` wraps
at 32 bits, the quotient is stored in a `uint8_t`. -/
def percent_of (bytes_downloaded total_size : Nat) : Nat :=
  if total_size ≠ 0 then (bytes_downloaded * 100 % WORD32 / total_size) % 256
  else 100

/-- The tail of `firmware_block_received_cb`, from `flash_img_buffered_write`
to the end. -/
def write_block (cfg : Config) (env : Env) (w : World) (data_len : Nat)
    (last_block : Bool) (total_size : Nat) : Int × World :=
  let r := env.flash_img_buffered_write w.dfu_bytes_written data_len last_block
  let w := { w.emit (Event.flash_img_buffered_write data_len last_block) with
             dfu_bytes_written := r.2 }
  let ret := r.1
  if ret < 0 then cleanup cfg w ret
  else if last_block = false then (ret, w)
  else
    let ret := if total_size ≠ 0 ∧ w.bytes_downloaded ≠ total_size then - EIO else ret
    cleanup cfg w ret

/-- Embeds `firmware_block_received_cb`.  The payload bytes only travel to
`flash_img_buffered_write`, so a block is its length `data_len`.  `none` is
returned only if the erase loop does not finish. -/
def firmware_block_received_cb (cfg : Config) (env : Env) (w : World) (data_len : Nat)
    (last_block : Bool) (total_size : Nat) : Option (Int × World) :=
  if total_size > cfg.FLASH_BANK1_SIZE then some (-EINVAL, w)
  else if data_len = 0 then some (-EINVAL, w)
  else
    let r := if w.bytes_downloaded = 0 then session_start cfg env w else (0, w)
    if r.1 ≠ 0 then some (cleanup cfg r.2 r.1)
    else
      let w := r.2
      let w := { w with bytes_downloaded := to_uint32 (w.bytes_downloaded + data_len) }
      let downloaded := percent_of w.bytes_downloaded total_size
      let w := if downloaded > w.percent_downloaded then
          { w with percent_downloaded := downloaded }.emit (Event.log_percent downloaded)
        else w
      if cfg.CONFIG_FOTA_ERASE_PROGRESSIVELY then
        match erase_loop cfg env (erase_fuel cfg w) w with
        | none => none
        | some r =>
          if r.1 ≠ 0 then some (cleanup cfg r.2 r.1)
          else some (write_block cfg env r.2 data_len last_block total_size)
      else some (write_block cfg env w data_len last_block total_size)


/-- The outside calls the block receiver may make: flash and bootloader-erase
operations and the progress log line. -/
def Event.is_flash_op : Event → Bool
  | Event.boot_invalidate_slot1 => true
  | Event.boot_erase_img_bank => true
  | Event.flash_img_init => true
  | Event.flash_erase _ _ => true
  | Event.flash_img_buffered_write _ _ => true
  | Event.log_percent _ => true
  | _ => false

/-- Every flash call of one block delivery succeeds (returns 0). -/
def Env.flash_ok (env : Env) : Prop :=
  env.boot_invalidate_slot1 = 0 ∧ env.boot_erase_img_bank = 0 ∧
  (∀ off, env.flash_erase off = 0) ∧
  (∀ pos len flush, (env.flash_img_buffered_write pos len flush).1 = 0)

/-- The C comparison `a >= b` of two counter fields, read like `counter_gt`. -/
def counter_ge (signed : Bool) (a b : Nat) : Bool :=
  if signed then decide (to_int32 a ≥ to_int32 b) else decide (a ≥ b)

/-- The largest value the `current` field can hold: `INT_MAX` for an `int`
field, `UINT32_MAX` for an unsigned one. -/
def counter_max (signed : Bool) : Nat :=
  if signed then 2147483647 else 4294967295

/-- The update-counter invariant of the spec: `update == -1` or
`update >= current`. -/
def counter_invariant (signed : Bool) (c : update_counter) : Prop :=
  c.update = MINUS_ONE ∨ counter_ge signed c.update c.current = true

/-- The call `lwm2m_image_init` makes to reset bank 1 under the configured
erase policy. -/
def reset_event (cfg : Config) : Event :=
  if cfg.CONFIG_FOTA_ERASE_PROGRESSIVELY then Event.boot_invalidate_slot1
  else Event.boot_erase_img_bank

/-- What that call returns. -/
def reset_code (cfg : Config) (env : Env) : Int :=
  if cfg.CONFIG_FOTA_ERASE_PROGRESSIVELY then env.boot_invalidate_slot1
  else env.boot_erase_img_bank

/-- The flash device is found and every bootloader call succeeds. -/
def Env.boot_ok (env : Env) : Prop :=
  env.device_get_binding = true ∧ env.boot_write_img_confirmed = 0 ∧
  env.boot_invalidate_slot1 = 0 ∧ env.boot_erase_img_bank = 0

/-- The settings backend accepts every write. -/
def Env.store_ok (env : Env) : Prop :=
  ∀ c, env.settings_save_one c = 0

/-- The stored counter after the boot-time advance `current := update`. -/
def advanced (c : update_counter) : update_counter :=
  { c with current := to_uint32 c.update }

instance (signed : Bool) (c : update_counter) : Decidable (counter_invariant signed c) := by
  unfold counter_invariant
  exact inferInstance

/-! ## Sessions of the block receiver -/

/-- The arguments of one call of `firmware_block_received_cb`. -/
structure Block where
  data_len : Nat
  last_block : Bool
  total_size : Nat
deriving DecidableEq

/-- Successive calls of `firmware_block_received_cb`, one per block, each on
the state the previous one left.  The result is the list of return codes and
the final state; `none` if a call does not return. -/
def deliver (cfg : Config) (env : Env) : World → List Block → Option (List Int × World)
  | w, [] => some ([], w)
  | w, b :: bs =>
    match firmware_block_received_cb cfg env w b.data_len b.last_block b.total_size with
    | none => none
    | some r =>
      match deliver cfg env r.2 bs with
      | none => none
      | some rs => some (r.1 :: rs.1, rs.2)

/-- The percent values logged by a run of calls, in order. -/
def emitted_percents : List Event → List Nat
  | [] => []
  | Event.log_percent p :: es => p :: emitted_percents es
  | _ :: es => emitted_percents es

/-- The blocks of one session: no block before the final one is marked
`last_block`. -/
def one_session : List Block → Prop
  | [] => True
  | [_] => True
  | b :: b2 :: bs => b.last_block = false ∧ one_session (b2 :: bs)

/-- A transfer of blocks of the given lengths with a constant `total_size`,
the last one marked `last_block`. -/
def session_blocks (total_size : Nat) : List Nat → List Block
  | [] => []
  | [len] => [⟨len, true, total_size⟩]
  | len :: len2 :: lens => ⟨len, false, total_size⟩ :: session_blocks total_size (len2 :: lens)

/-- The erased sector `[offset, offset + size)` lies inside flash bank 1. -/
def sector_in_bank (cfg : Config) (offset size : Nat) : Prop :=
  cfg.FLASH_BANK1_OFFSET ≤ offset ∧
  offset + size ≤ cfg.FLASH_BANK1_OFFSET + cfg.FLASH_BANK1_SIZE

instance (cfg : Config) (offset size : Nat) : Decidable (sector_in_bank cfg offset size) := by
  unfold sector_in_bank
  exact inferInstance

/-- The sectors erased by `flash_erase` calls of a trace, as (offset, size). -/
def erased_sectors : List Event → List (Nat × Nat)
  | [] => []
  | Event.flash_erase offset size :: es => (offset, size) :: erased_sectors es
  | _ :: es => erased_sectors es

/-- What one call adds to the progress log: the newly computed percentage
when it exceeds the last one shown, nothing otherwise. -/
def percent_log (percent_downloaded bytes_downloaded total_size : Nat) : List Nat :=
  if percent_of bytes_downloaded total_size > percent_downloaded then
    [percent_of bytes_downloaded total_size]
  else []

/-- The value of `percent_downloaded` after the progress display of one call. -/
def next_percent (percent_downloaded bytes_downloaded total_size : Nat) : Nat :=
  if percent_of bytes_downloaded total_size > percent_downloaded then
    percent_of bytes_downloaded total_size
  else percent_downloaded

/-! ## Example inputs -/

/-- A bank of 0x30000 bytes at 0x40000, 4 KiB erase blocks, progressive erase,
`int` counter fields. -/
def cfg_progressive : Config := ⟨0x40000, 0x30000, 4096, true, true, by decide⟩

/-- The same geometry with the bulk erase policy. -/
def cfg_bulk : Config := ⟨0x40000, 0x30000, 4096, false, true, by decide⟩

/-- Every collaborator succeeds; the image is not yet confirmed; a buffered
write advances the write position by the length written. -/
def env_ok : Env :=
  ⟨true, false, 0, 0, 0, fun _ => 0, fun pos len _ => (0, pos + len), fun _ => 0⟩

/-- State after reset, with the counter `{current: 1, update: -1}`. -/
def world_idle : World := ⟨⟨1, MINUS_ONE⟩, 0x40000, 0, 0, 0, []⟩

/-- The settings backend rejects every write with `-EIO`; everything else
succeeds. -/
def env_store_fails : Env := { env_ok with settings_save_one := fun _ => - EIO }

/-- Every collaborator succeeds and the running image is already confirmed. -/
def env_confirmed : Env := { env_ok with boot_is_img_confirmed := true }

/-- The geometry of `cfg_progressive` with unsigned counter fields. -/
def cfg_unsigned : Config := ⟨0x40000, 0x30000, 4096, true, false, by decide⟩

/-- State after reset with the counter `{current: 1, update: 2}`. -/
def world_pending : World := ⟨⟨1, 2⟩, 0x40000, 0, 0, 0, []⟩

/-- State after reset with the counter patterns `0xFFFFFFFE`, `0xFFFFFFFF`:
`{current: -2, update: -1}` when the fields are `int`. -/
def world_negative : World := ⟨⟨4294967294, MINUS_ONE⟩, 0x40000, 0, 0, 0, []⟩

/-- State after reset with both counter fields at `value`. -/
def world_updated (value : Nat) : World := ⟨⟨value, value⟩, 0x40000, 0, 0, 0, []⟩

/-- State reached from `world_idle` after one 4096-byte block of a 0x30000-byte
transfer under `cfg_progressive` and `env_ok`. -/
def world_midway : World :=
  ⟨⟨1, MINUS_ONE⟩, 0x41000, 2, 4096, 4096,
    [Event.flash_img_init, Event.boot_invalidate_slot1, Event.log_percent 2,
     Event.flash_erase 0x40000 4096, Event.flash_img_buffered_write 4096 false]⟩

/-- A bank of two 4 KiB erase blocks at 0x40000, progressive erase. -/
def cfg_two_sectors : Config := ⟨0x40000, 0x2000, 4096, true, true, by decide⟩

/-- A bank of 64 MiB at 0x40000, bulk erase. -/
def cfg_large : Config := ⟨0x40000, 0x4000000, 4096, false, true, by decide⟩

/-- State under `cfg_progressive` with the erase cursor at the last sector of
the bank (0x6F000) and 0x2F800 bytes written, 2 KiB short of the bank size. -/
def world_near_end : World := ⟨⟨1, MINUS_ONE⟩, 0x6F000, 98, 0x2F800, 0x2F800, []⟩

/-- State after reset for a bank at 0x40000. -/
def world_start : World := ⟨⟨1, MINUS_ONE⟩, 0x40000, 0, 0, 0, []⟩

/-- Block lengths of a transfer of 42949673 bytes: 655 blocks of 65535 bytes,
the largest `uint16_t` length, and a last block of 24248 bytes. -/
def big_transfer : List Nat := List.replicate 655 65535 ++ [24248]

theorem env_ok_flash_ok : env_ok.flash_ok :=
  ⟨rfl, rfl, fun _ => rfl, fun _ _ _ => rfl⟩

/-! ## Lemmas on the block receiver -/

theorem cleanup_fst (cfg : Config) (w : World) (ret : Int) : (cleanup cfg w ret).1 = ret := by
  simp [cleanup]

theorem cleanup_reset (cfg : Config) (w : World) (ret : Int) :
    (cleanup cfg w ret).2.bytes_downloaded = 0 ∧ (cleanup cfg w ret).2.percent_downloaded = 0 ∧
    (cfg.CONFIG_FOTA_ERASE_PROGRESSIVELY = true →
      (cleanup cfg w ret).2.last_offset = cfg.FLASH_BANK1_OFFSET) := by
  simp only [cleanup]
  split <;> simp_all

theorem cleanup_frame (cfg : Config) (w : World) (ret : Int) :
    (cleanup cfg w ret).2.uc = w.uc ∧ (cleanup cfg w ret).2.trace = w.trace := by
  simp only [cleanup]
  split <;> simp

/-- With fuel at least `erase_fuel`, the erase loop finishes; it changes only
`last_offset` and the trace, to which it adds `flash_erase` calls only, and
it ends with 0 when every erase succeeds. -/
theorem erase_loop_spec (cfg : Config) (env : Env) :
    ∀ (fuel : Nat) (w : World), erase_fuel cfg w ≤ fuel →
      ∃ ret w' evs, erase_loop cfg env fuel w = some (ret, w') ∧
        w'.uc = w.uc ∧ w'.bytes_downloaded = w.bytes_downloaded ∧
        w'.percent_downloaded = w.percent_downloaded ∧
        w'.dfu_bytes_written = w.dfu_bytes_written ∧
        w'.trace = w.trace ++ evs ∧
        (∀ e ∈ evs, ∃ off, e = Event.flash_erase off cfg.DT_FLASH_ERASE_BLOCK_SIZE) ∧
        ((∀ off, env.flash_erase off = 0) → ret = 0) := by
  intro fuel
  induction fuel with
  | zero =>
    intro w hf
    have hpos := cfg.erase_block_pos
    unfold erase_fuel at hf
    have hc : ¬ w.last_offset <
        cfg.FLASH_BANK1_OFFSET + w.dfu_bytes_written + cfg.DT_FLASH_ERASE_BLOCK_SIZE := by omega
    refine ⟨0, w, [], ?_, rfl, rfl, rfl, rfl, by simp, by simp, fun _ => rfl⟩
    unfold erase_loop
    simp [hc]
  | succ n ih =>
    intro w hf
    have hpos := cfg.erase_block_pos
    by_cases hc : w.last_offset <
        cfg.FLASH_BANK1_OFFSET + w.dfu_bytes_written + cfg.DT_FLASH_ERASE_BLOCK_SIZE
    · by_cases hr : env.flash_erase w.last_offset = 0
      · have hf' : erase_fuel cfg
            { w.emit (Event.flash_erase w.last_offset cfg.DT_FLASH_ERASE_BLOCK_SIZE) with
              last_offset := w.last_offset + cfg.DT_FLASH_ERASE_BLOCK_SIZE } ≤ n := by
          unfold erase_fuel at hf ⊢
          simp only [World.emit]
          omega
        obtain ⟨ret, w', evs, heq, h1, h2, h3, h4, h5, h6, h7⟩ := ih _ hf'
        refine ⟨ret, w', Event.flash_erase w.last_offset cfg.DT_FLASH_ERASE_BLOCK_SIZE :: evs,
          ?_, ?_, ?_, ?_, ?_, ?_, ?_, h7⟩
        · rw [erase_loop]
          simp only [hc, if_true, hr, ne_eq, not_true_eq_false, if_false]
          exact heq
        · simpa [World.emit] using h1
        · simpa [World.emit] using h2
        · simpa [World.emit] using h3
        · simpa [World.emit] using h4
        · simpa [World.emit] using h5
        · intro e he
          rcases List.mem_cons.mp he with h | h
          · exact ⟨_, h⟩
          · exact h6 e h
      · refine ⟨env.flash_erase w.last_offset,
          { w.emit (Event.flash_erase w.last_offset cfg.DT_FLASH_ERASE_BLOCK_SIZE) with
            last_offset := w.last_offset + cfg.DT_FLASH_ERASE_BLOCK_SIZE },
          [Event.flash_erase w.last_offset cfg.DT_FLASH_ERASE_BLOCK_SIZE], ?_, ?_, ?_, ?_, ?_, ?_,
          ?_, ?_⟩
        · rw [erase_loop]
          simp only [hc, if_true, ne_eq, hr, not_false_eq_true]
          rfl
        · simp [World.emit]
        · simp [World.emit]
        · simp [World.emit]
        · simp [World.emit]
        · simp [World.emit]
        · intro e he
          exact ⟨_, List.mem_singleton.mp he⟩
        · intro hall
          exact absurd (hall _) hr
    · refine ⟨0, w, [], ?_, rfl, rfl, rfl, rfl, by simp, by simp, fun _ => rfl⟩
      unfold erase_loop
      simp [hc]


theorem session_start_spec (cfg : Config) (env : Env) (w : World) :
    ∃ evs, (session_start cfg env w).2.uc = w.uc ∧
      (session_start cfg env w).2.bytes_downloaded = w.bytes_downloaded ∧
      (session_start cfg env w).2.percent_downloaded = w.percent_downloaded ∧
      (session_start cfg env w).2.trace = w.trace ++ evs ∧
      (∀ e ∈ evs, e.is_flash_op = true) ∧
      (env.flash_ok → (session_start cfg env w).1 = 0) := by
  unfold session_start
  split
  · refine ⟨[Event.flash_img_init, Event.boot_invalidate_slot1], rfl, rfl, rfl, ?_, ?_, ?_⟩
    · simp [World.emit]
    · simp [Event.is_flash_op]
    · intro h
      exact h.1
  · refine ⟨[Event.flash_img_init, Event.boot_erase_img_bank], rfl, rfl, rfl, ?_, ?_, ?_⟩
    · simp [World.emit]
    · simp [Event.is_flash_op]
    · intro h
      exact h.2.1

/-- The tail of the callback on a last block: the session is reset whatever
the write returns; the code is the write error, else - EIO on a size mismatch,
else what the write returned. -/
theorem write_block_last (cfg : Config) (env : Env) (w : World) (data_len total_size : Nat) :
    (write_block cfg env w data_len true total_size).2.bytes_downloaded = 0 ∧
    (write_block cfg env w data_len true total_size).2.percent_downloaded = 0 ∧
    (cfg.CONFIG_FOTA_ERASE_PROGRESSIVELY = true →
      (write_block cfg env w data_len true total_size).2.last_offset = cfg.FLASH_BANK1_OFFSET) ∧
    (write_block cfg env w data_len true total_size).2.uc = w.uc ∧
    (write_block cfg env w data_len true total_size).2.trace =
      w.trace ++ [Event.flash_img_buffered_write data_len true] ∧
    (env.flash_ok → (write_block cfg env w data_len true total_size).1 =
      if total_size ≠ 0 ∧ w.bytes_downloaded ≠ total_size then - EIO else 0) := by
  have hr := cleanup_reset cfg
  have hf := cleanup_frame cfg
  unfold write_block
  simp only [Bool.true_eq_false, if_false]
  split
  · refine ⟨(hr _ _).1, (hr _ _).2.1, (hr _ _).2.2, ?_, ?_, ?_⟩
    · rw [(hf _ _).1]
      rfl
    · rw [(hf _ _).2]
      rfl
    · intro hok
      rename_i hneg
      rw [hok.2.2.2] at hneg
      exact absurd hneg (by decide)
  · refine ⟨(hr _ _).1, (hr _ _).2.1, (hr _ _).2.2, ?_, ?_, ?_⟩
    · rw [(hf _ _).1]
      rfl
    · rw [(hf _ _).2]
      rfl
    · intro hok
      rw [cleanup_fst, hok.2.2.2]
      rfl

/-- A last block that passes the two entry checks: the callback returns, the
session is reset on every path, the counter is untouched, only flash calls are
made, and when every flash call succeeds the code is - EIO on a size mismatch
and 0 otherwise. -/
theorem last_block_spec (cfg : Config) (env : Env) (w : World) (data_len total_size : Nat)
    (hfit : total_size ≤ cfg.FLASH_BANK1_SIZE) (hlen : data_len ≠ 0) :
    ∃ ret w' evs, firmware_block_received_cb cfg env w data_len true total_size = some (ret, w') ∧
      w'.bytes_downloaded = 0 ∧ w'.percent_downloaded = 0 ∧
      (cfg.CONFIG_FOTA_ERASE_PROGRESSIVELY = true → w'.last_offset = cfg.FLASH_BANK1_OFFSET) ∧
      w'.uc = w.uc ∧ w'.trace = w.trace ++ evs ∧ (∀ e ∈ evs, e.is_flash_op = true) ∧
      (env.flash_ok → ret =
        if total_size ≠ 0 ∧ to_uint32 (w.bytes_downloaded + data_len) ≠ total_size
        then - EIO else 0) := by
  -- the first-block step
  obtain ⟨r0, hr0, evs0, huc0, hbd0, hpd0, htr0, hfl0, hok0⟩ :
      ∃ r0 : Int × World,
        r0 = (if w.bytes_downloaded = 0 then session_start cfg env w else (0, w)) ∧
        ∃ evs0, r0.2.uc = w.uc ∧ r0.2.bytes_downloaded = w.bytes_downloaded ∧
          r0.2.percent_downloaded = w.percent_downloaded ∧ r0.2.trace = w.trace ++ evs0 ∧
          (∀ e ∈ evs0, e.is_flash_op = true) ∧ (env.flash_ok → r0.1 = 0) := by
    refine ⟨_, rfl, ?_⟩
    split
    · exact session_start_spec cfg env w
    · exact ⟨[], rfl, rfl, rfl, by simp, by simp, fun _ => rfl⟩
  unfold firmware_block_received_cb
  simp only [gt_iff_lt, not_lt.mpr hfit, if_false, hlen]
  rw [← hr0]
  by_cases h0 : r0.1 ≠ 0
  · -- session start failed: cleanup
    refine ⟨r0.1, (cleanup cfg r0.2 r0.1).2, evs0, ?_, (cleanup_reset cfg _ _).1,
      (cleanup_reset cfg _ _).2.1, (cleanup_reset cfg _ _).2.2, ?_, ?_, hfl0, ?_⟩
    · rw [if_pos h0]
      exact congrArg some (Prod.ext (cleanup_fst _ _ _) rfl)
    · rw [(cleanup_frame cfg _ _).1, huc0]
    · rw [(cleanup_frame cfg _ _).2, htr0]
    · intro hok
      exact absurd (hok0 hok) h0
  · rw [if_neg h0]
    -- the state after the progress display
    generalize hw1 : (if percent_of (to_uint32 (r0.2.bytes_downloaded + data_len)) total_size >
          r0.2.percent_downloaded then
        World.emit { r0.2 with
            bytes_downloaded := to_uint32 (r0.2.bytes_downloaded + data_len),
            percent_downloaded :=
              percent_of (to_uint32 (r0.2.bytes_downloaded + data_len)) total_size }
          (Event.log_percent (percent_of (to_uint32 (r0.2.bytes_downloaded + data_len)) total_size))
      else { r0.2 with bytes_downloaded := to_uint32 (r0.2.bytes_downloaded + data_len) }) = w1
    obtain ⟨evs1, huc1, hbd1, htr1, hfl1⟩ :
        ∃ evs1, w1.uc = w.uc ∧
          w1.bytes_downloaded = to_uint32 (w.bytes_downloaded + data_len) ∧
          w1.trace = w.trace ++ evs1 ∧ (∀ e ∈ evs1, e.is_flash_op = true) := by
      rw [← hw1]
      split
      · refine ⟨evs0 ++ [Event.log_percent
          (percent_of (to_uint32 (r0.2.bytes_downloaded + data_len)) total_size)], huc0, ?_, ?_, ?_⟩
        · simp [World.emit, hbd0]
        · simp [World.emit, htr0]
        · intro e he
          rcases List.mem_append.mp he with h | h
          · exact hfl0 e h
          · rw [List.mem_singleton.mp h]
            rfl
      · exact ⟨evs0, huc0, by simp [hbd0], htr0, hfl0⟩
    have hwb := write_block_last cfg env
    by_cases hp : cfg.CONFIG_FOTA_ERASE_PROGRESSIVELY = true
    · rw [if_pos hp]
      obtain ⟨ret, w2, evs2, heq, huc2, hbd2, _, _, htr2, hfl2, hok2⟩ :=
        erase_loop_spec cfg env (erase_fuel cfg w1) w1 (le_refl _)
      rw [heq]
      by_cases h2 : ret ≠ 0
      · refine ⟨ret, (cleanup cfg w2 ret).2, evs1 ++ evs2, ?_, (cleanup_reset cfg _ _).1,
          (cleanup_reset cfg _ _).2.1, (cleanup_reset cfg _ _).2.2, ?_, ?_, ?_, ?_⟩
        · simp only []
          rw [if_pos h2]
          exact congrArg some (Prod.ext (cleanup_fst _ _ _) rfl)
        · rw [(cleanup_frame cfg _ _).1, huc2, huc1]
        · rw [(cleanup_frame cfg _ _).2, htr2, htr1, List.append_assoc]
        · intro e he
          rcases List.mem_append.mp he with h | h
          · exact hfl1 e h
          · obtain ⟨off, ho⟩ := hfl2 e h
            rw [ho]
            rfl
        · intro hok
          exact absurd (hok2 hok.2.2.1) h2
      · obtain ⟨b1, b2, b3, b4, b5, b6⟩ := hwb w2 data_len total_size
        refine ⟨(write_block cfg env w2 data_len true total_size).1,
          (write_block cfg env w2 data_len true total_size).2,
          evs1 ++ evs2 ++ [Event.flash_img_buffered_write data_len true], ?_,
          b1, b2, b3, ?_, ?_, ?_, ?_⟩
        · simp only []
          rw [if_neg h2]
        · rw [b4, huc2, huc1]
        · rw [b5, htr2, htr1]
          simp only [List.append_assoc]
        · intro e he
          rcases List.mem_append.mp he with h | h
          · rcases List.mem_append.mp h with h | h
            · exact hfl1 e h
            · obtain ⟨off, ho⟩ := hfl2 e h
              rw [ho]
              rfl
          · rw [List.mem_singleton.mp h]
            rfl
        · intro hok
          rw [b6 hok, hbd2, hbd1]
    · rw [if_neg hp]
      obtain ⟨b1, b2, b3, b4, b5, b6⟩ := hwb w1 data_len total_size
      refine ⟨(write_block cfg env w1 data_len true total_size).1,
        (write_block cfg env w1 data_len true total_size).2,
        evs1 ++ [Event.flash_img_buffered_write data_len true], rfl,
        b1, b2, b3, ?_, ?_, ?_, ?_⟩
      · rw [b4, huc1]
      · rw [b5, htr1, List.append_assoc]
      · intro e he
        rcases List.mem_append.mp he with h | h
        · exact hfl1 e h
        · rw [List.mem_singleton.mp h]
          rfl
      · intro hok
        rw [b6 hok, hbd1]

/-! ## Block receiver: claims -/

/-- C1 (truncation): a non-empty last block with `total_size != 0`,
`total_size <= FLASH_BANK1_SIZE` and every flash call succeeding, delivered in
any session state, for which `bytes_downloaded` after adding this block is
below `total_size`: the callback returns `- EIO`, the update counter is
untouched, the calls it makes include no `boot_request_upgrade` and no
`settings_save_one`, and `bytes_downloaded` and `percent_downloaded` are 0
afterwards. -/
theorem truncated_last_block_rejected (cfg : Config) (env : Env) (w : World)
    (data_len total_size : Nat) (hlen : data_len ≠ 0) (hts : total_size ≠ 0)
    (hfit : total_size ≤ cfg.FLASH_BANK1_SIZE) (hok : env.flash_ok)
    (hshort : to_uint32 (w.bytes_downloaded + data_len) < total_size) :
    ∃ w' evs, firmware_block_received_cb cfg env w data_len true total_size = some (- EIO, w') ∧
      w'.bytes_downloaded = 0 ∧ w'.percent_downloaded = 0 ∧
      w'.uc = w.uc ∧ w'.trace = w.trace ++ evs ∧
      (∀ p, Event.boot_request_upgrade p ∉ evs) ∧
      (∀ c, Event.settings_save_one c ∉ evs) := by
  obtain ⟨ret, w', evs, heq, hbd, hpd, _, huc, htr, hfl, hret⟩ :=
    last_block_spec cfg env w data_len total_size hfit hlen
  have hne : to_uint32 (w.bytes_downloaded + data_len) ≠ total_size := Nat.ne_of_lt hshort
  have hr : ret = - EIO := by
    rw [hret hok, if_pos ⟨hts, hne⟩]
  subst hr
  refine ⟨w', evs, heq, hbd, hpd, huc, htr, ?_, ?_⟩
  · intro p hmem
    have := hfl _ hmem
    simp [Event.is_flash_op] at this
  · intro c hmem
    have := hfl _ hmem
    simp [Event.is_flash_op] at this

/-- Witness of C1: one block of 50 bytes, `last_block = true`,
`total_size = 100`, delivered to the idle state. -/
theorem truncated_last_block_rejected_witness :
    (50 ≠ 0 ∧ 100 ≠ 0 ∧ 100 ≤ cfg_progressive.FLASH_BANK1_SIZE ∧ env_ok.flash_ok ∧
      to_uint32 (world_idle.bytes_downloaded + 50) < 100) ∧
    ∃ w' evs, firmware_block_received_cb cfg_progressive env_ok world_idle 50 true 100 =
        some (- EIO, w') ∧
      w'.bytes_downloaded = 0 ∧ w'.percent_downloaded = 0 ∧
      w'.uc = world_idle.uc ∧ w'.trace = world_idle.trace ++ evs ∧
      (∀ p, Event.boot_request_upgrade p ∉ evs) ∧
      (∀ c, Event.settings_save_one c ∉ evs) :=
  ⟨⟨by decide, by decide, by decide, env_ok_flash_ok, by decide⟩,
    truncated_last_block_rejected cfg_progressive env_ok world_idle 50 100 (by decide)
      (by decide) (by decide) env_ok_flash_ok (by decide)⟩

/-- C2 (size check): a block with `total_size > FLASH_BANK1_SIZE`, in any
session state and whatever the other arguments, is rejected with `-EINVAL`
and the whole state is what it was: `bytes_downloaded`, `percent_downloaded`
and `last_offset` are unchanged and the trace has no new call, so no flash
erase or write was made. -/
theorem oversize_block_rejected (cfg : Config) (env : Env) (w : World)
    (data_len : Nat) (last_block : Bool) (total_size : Nat)
    (hbig : total_size > cfg.FLASH_BANK1_SIZE) :
    firmware_block_received_cb cfg env w data_len last_block total_size =
      some (-EINVAL, w) := by
  unfold firmware_block_received_cb
  rw [if_pos hbig]

/-- Witness of C2: a block announcing one byte more than the bank holds,
delivered in the middle of a download. -/
theorem oversize_block_rejected_witness :
    0x30001 > cfg_progressive.FLASH_BANK1_SIZE ∧
    firmware_block_received_cb cfg_progressive env_ok world_midway 4096 false 0x30001 =
      some (-EINVAL, world_midway) :=
  ⟨by decide, oversize_block_rejected cfg_progressive env_ok world_midway 4096 false 0x30001
    (by decide)⟩

/-- C10 fails as stated: `world_midway` is the state after a first block; a
last block that fails an entry check (size above the bank, or zero length)
returns `-EINVAL` and leaves `bytes_downloaded = 4096`,
`percent_downloaded = 2` and the erase cursor one block past the bank start. -/
theorem last_block_reset_counterexample :
    firmware_block_received_cb cfg_progressive env_ok world_idle 4096 false 0x30000 =
      some (0, world_midway) ∧
    firmware_block_received_cb cfg_progressive env_ok world_midway 4096 true 0x30001 =
      some (-EINVAL, world_midway) ∧
    firmware_block_received_cb cfg_progressive env_ok world_midway 0 true 0x30000 =
      some (-EINVAL, world_midway) ∧
    world_midway.bytes_downloaded = 4096 ∧ world_midway.percent_downloaded = 2 ∧
    world_midway.last_offset = cfg_progressive.FLASH_BANK1_OFFSET + 4096 := by
  refine ⟨by decide, by decide, by decide, rfl, rfl, by decide⟩

/-- C10 as amended: a call with `last_block = true` that passes the two entry
checks (`total_size <= FLASH_BANK1_SIZE`, `data_len != 0`) returns, whatever
the flash calls return, with `bytes_downloaded = 0`, `percent_downloaded = 0`
and, in progressive mode, `last_offset` at the bank start; a call stopped by
an entry check returns `-EINVAL` with the state untouched. -/
theorem last_block_resets_session (cfg : Config) (env : Env) (w : World)
    (data_len total_size : Nat) :
    (total_size ≤ cfg.FLASH_BANK1_SIZE → data_len ≠ 0 →
      ∃ ret w', firmware_block_received_cb cfg env w data_len true total_size = some (ret, w') ∧
        w'.bytes_downloaded = 0 ∧ w'.percent_downloaded = 0 ∧
        (cfg.CONFIG_FOTA_ERASE_PROGRESSIVELY = true →
          w'.last_offset = cfg.FLASH_BANK1_OFFSET)) ∧
    (total_size > cfg.FLASH_BANK1_SIZE ∨ data_len = 0 →
      firmware_block_received_cb cfg env w data_len true total_size = some (-EINVAL, w)) := by
  constructor
  · intro hfit hlen
    obtain ⟨ret, w', _, heq, hbd, hpd, hlo, _⟩ :=
      last_block_spec cfg env w data_len total_size hfit hlen
    exact ⟨ret, w', heq, hbd, hpd, hlo⟩
  · intro h
    unfold firmware_block_received_cb
    rcases h with h | h
    · rw [if_pos h]
    · by_cases hb : total_size > cfg.FLASH_BANK1_SIZE
      · rw [if_pos hb]
      · rw [if_neg hb, if_pos h]

/-- Witness of amended C10: a short last block in the middle of a download
whose write fails with `- EIO`. -/
theorem last_block_resets_session_witness :
    (0x30000 ≤ cfg_progressive.FLASH_BANK1_SIZE ∧ 4096 ≠ 0) ∧
    ∃ ret w', firmware_block_received_cb cfg_progressive
        { env_ok with flash_img_buffered_write := fun pos _ _ => (-5, pos) }
        world_midway 4096 true 0x30000 = some (ret, w') ∧
      w'.bytes_downloaded = 0 ∧ w'.percent_downloaded = 0 ∧
      (cfg_progressive.CONFIG_FOTA_ERASE_PROGRESSIVELY = true →
        w'.last_offset = cfg_progressive.FLASH_BANK1_OFFSET) :=
  ⟨⟨by decide, by decide⟩,
    (last_block_resets_session cfg_progressive
      { env_ok with flash_img_buffered_write := fun pos _ _ => (-5, pos) }
      world_midway 4096 0x30000).1 (by decide) (by decide)⟩

/-! ## Counter store and commit: claims -/

/-- C3 (commit): for every stored counter, `firmware_update_cb` sets `update`
to `current + 1` (the `uint32_t` argument, so the sum is taken modulo 2^32)
and hands the record to the settings backend as its first call; the calls
that follow are `boot_request_upgrade` and the reboot work item exactly when
that write returned 0; when it returned an error the callback returns that
error and makes no further call. -/
theorem commit_requests_upgrade_iff_saved (env : Env) (w : World) :
    ∃ evs, (firmware_update_cb env w).2.uc =
        { w.uc with update := to_uint32 (w.uc.current + 1) } ∧
      (w.uc.current + 1 < WORD32 → (firmware_update_cb env w).2.uc.update = w.uc.current + 1) ∧
      (firmware_update_cb env w).2.trace =
        w.trace ++ Event.settings_save_one
          { w.uc with update := to_uint32 (w.uc.current + 1) } :: evs ∧
      ((Event.boot_request_upgrade false ∈ evs ∧ Event.k_delayed_work_submit ∈ evs) ↔
        env.settings_save_one { w.uc with update := to_uint32 (w.uc.current + 1) } = 0) ∧
      (env.settings_save_one { w.uc with update := to_uint32 (w.uc.current + 1) } = 0 →
        (firmware_update_cb env w).1 = 0 ∧
        evs = [Event.boot_request_upgrade false, Event.k_delayed_work_submit]) ∧
      (env.settings_save_one { w.uc with update := to_uint32 (w.uc.current + 1) } ≠ 0 →
        (firmware_update_cb env w).1 =
          env.settings_save_one { w.uc with update := to_uint32 (w.uc.current + 1) } ∧
        evs = []) := by
  by_cases hs :
      env.settings_save_one { w.uc with update := to_uint32 (w.uc.current + 1) } = 0
  · refine ⟨[Event.boot_request_upgrade false, Event.k_delayed_work_submit], ?_, ?_, ?_, ?_,
      ?_, ?_⟩
    · simp [firmware_update_cb, fota_update_counter_read, fota_update_counter_update,
        World.emit, hs]
    · intro hlt
      have huc : (firmware_update_cb env w).2.uc =
          { w.uc with update := to_uint32 (w.uc.current + 1) } := by
        simp [firmware_update_cb, fota_update_counter_read, fota_update_counter_update,
          World.emit, hs]
      rw [huc]
      exact Nat.mod_eq_of_lt hlt
    · simp [firmware_update_cb, fota_update_counter_read, fota_update_counter_update,
        World.emit, hs]
    · simp [hs]
    · intro _
      simp [firmware_update_cb, fota_update_counter_read, fota_update_counter_update,
        World.emit, hs]
    · intro h
      exact absurd hs h
  · refine ⟨[], ?_, ?_, ?_, ?_, ?_, ?_⟩
    · simp [firmware_update_cb, fota_update_counter_read, fota_update_counter_update,
        World.emit, hs]
    · intro hlt
      have huc : (firmware_update_cb env w).2.uc =
          { w.uc with update := to_uint32 (w.uc.current + 1) } := by
        simp [firmware_update_cb, fota_update_counter_read, fota_update_counter_update,
          World.emit, hs]
      rw [huc]
      exact Nat.mod_eq_of_lt hlt
    · simp [firmware_update_cb, fota_update_counter_read, fota_update_counter_update,
        World.emit, hs]
    · simp [hs]
    · intro h
      exact absurd h hs
    · intro _
      simp [firmware_update_cb, fota_update_counter_read, fota_update_counter_update,
        World.emit, hs]

/-- C8 fails as stated: with the counter `{current: 1, update: -1}` and a
backend that rejects the write, `fota_update_counter_update(COUNTER_UPDATE, 2)`
returns the error, and the following `fota_update_counter_read` yields
`{current: 1, update: 2}`, not the counter read before the call. -/
theorem counter_update_failure_counterexample :
    (fota_update_counter_read world_idle).2 = ⟨1, MINUS_ONE⟩ ∧
    (fota_update_counter_update env_store_fails world_idle
      update_counter_t.COUNTER_UPDATE 2).1 = - EIO ∧
    (fota_update_counter_read (fota_update_counter_update env_store_fails world_idle
      update_counter_t.COUNTER_UPDATE 2).2).2 = ⟨1, 2⟩ := by
  refine ⟨rfl, by decide, by decide⟩

/-- C8 as amended: when the backend rejects the write,
`fota_update_counter_update` returns the backend's error, and the counter
returned by a following `fota_update_counter_read` already has the selected
field set to `new_value` (as `uint32_t`), the other field being as before; it
equals the counter read before the call only if the selected field already
held that value. -/
theorem counter_update_failure_keeps_new_value (env : Env) (w : World)
    (type : update_counter_t) (new_value : Nat)
    (_hfail : (fota_update_counter_update env w type new_value).1 ≠ 0) :
    (fota_update_counter_update env w type new_value).1 =
      env.settings_save_one
        (fota_update_counter_read (fota_update_counter_update env w type new_value).2).2 ∧
    (type = update_counter_t.COUNTER_UPDATE →
      (fota_update_counter_read (fota_update_counter_update env w type new_value).2).2 =
        { w.uc with update := to_uint32 new_value }) ∧
    (type = update_counter_t.COUNTER_CURRENT →
      (fota_update_counter_read (fota_update_counter_update env w type new_value).2).2 =
        { w.uc with current := to_uint32 new_value }) ∧
    ((fota_update_counter_read (fota_update_counter_update env w type new_value).2).2 =
        (fota_update_counter_read w).2 ↔
      (type = update_counter_t.COUNTER_UPDATE ∧ w.uc.update = to_uint32 new_value) ∨
      (type = update_counter_t.COUNTER_CURRENT ∧ w.uc.current = to_uint32 new_value)) := by
  cases type
  · have hres : (fota_update_counter_read (fota_update_counter_update env w
        update_counter_t.COUNTER_CURRENT new_value).2).2 =
        { w.uc with current := to_uint32 new_value } := by
      simp [fota_update_counter_update, fota_update_counter_read, World.emit]
    refine ⟨?_, ?_, ?_, ?_⟩
    · simp [fota_update_counter_update, fota_update_counter_read, World.emit]
    · intro h
      exact absurd h (by decide)
    · intro _
      exact hres
    · rw [hres]
      constructor
      · intro h
        exact Or.inr ⟨rfl, (congrArg update_counter.current h).symm⟩
      · intro h
        rcases h with h | h
        · exact absurd h.1 (by decide)
        · show ({ w.uc with current := to_uint32 new_value } : update_counter) = w.uc
          rw [← h.2]
  · have hres : (fota_update_counter_read (fota_update_counter_update env w
        update_counter_t.COUNTER_UPDATE new_value).2).2 =
        { w.uc with update := to_uint32 new_value } := by
      simp [fota_update_counter_update, fota_update_counter_read, World.emit]
    refine ⟨?_, ?_, ?_, ?_⟩
    · simp [fota_update_counter_update, fota_update_counter_read, World.emit]
    · intro _
      exact hres
    · intro h
      exact absurd h (by decide)
    · rw [hres]
      constructor
      · intro h
        exact Or.inl ⟨rfl, (congrArg update_counter.update h).symm⟩
      · intro h
        rcases h with h | h
        · show ({ w.uc with update := to_uint32 new_value } : update_counter) = w.uc
          rw [← h.2]
        · exact absurd h.1 (by decide)

/-- Witness of amended C8: the rejected write of `update = 2` on the counter
`{current: 1, update: -1}`. -/
theorem counter_update_failure_keeps_new_value_witness :
    (fota_update_counter_update env_store_fails world_idle
      update_counter_t.COUNTER_UPDATE 2).1 ≠ 0 ∧
    (fota_update_counter_read (fota_update_counter_update env_store_fails world_idle
      update_counter_t.COUNTER_UPDATE 2).2).2 =
        { world_idle.uc with update := to_uint32 2 } :=
  ⟨by decide,
    (counter_update_failure_keeps_new_value env_store_fails world_idle
      update_counter_t.COUNTER_UPDATE 2 (by decide)).2.1 rfl⟩

/-! ## Boot-time image check: lemmas -/

theorem reset_bank1_eq (cfg : Config) (env : Env) (w : World) :
    reset_bank1 cfg env w = (reset_code cfg env, w.emit (reset_event cfg)) := by
  unfold reset_bank1 reset_code reset_event
  split <;> rfl

/-- With the flash device found and the image already confirmed,
`lwm2m_image_init` is the status report on the stored counter. -/
theorem image_init_confirmed (cfg : Config) (env : Env) (w : World)
    (hdev : env.device_get_binding = true) (hconf : env.boot_is_img_confirmed = true) :
    lwm2m_image_init cfg env w = report_update_status cfg w w.uc 0 := by
  simp [lwm2m_image_init, fota_update_counter_read, hdev, hconf]

/-- With the flash device found, the image unconfirmed, the confirmation and
the bank reset succeeding and no update pending, `lwm2m_image_init` is the
status report after the two bootloader calls. -/
theorem image_init_unconfirmed_idle (cfg : Config) (env : Env) (w : World)
    (hdev : env.device_get_binding = true) (hunc : env.boot_is_img_confirmed = false)
    (hc : env.boot_write_img_confirmed = 0) (hr : reset_code cfg env = 0)
    (hupd : w.uc.update = MINUS_ONE) :
    lwm2m_image_init cfg env w =
      report_update_status cfg
        ((w.emit Event.boot_write_img_confirmed).emit (reset_event cfg)) w.uc 0 := by
  simp [lwm2m_image_init, fota_update_counter_read, hdev, hunc, hc, reset_bank1_eq, hr, hupd,
    World.emit]

/-- The same with an update pending: the counter is advanced and saved, and
when the save succeeds the status report is made on the advanced counter. -/
theorem image_init_unconfirmed_pending (cfg : Config) (env : Env) (w : World)
    (hdev : env.device_get_binding = true) (hunc : env.boot_is_img_confirmed = false)
    (hc : env.boot_write_img_confirmed = 0) (hr : reset_code cfg env = 0)
    (hupd : w.uc.update ≠ MINUS_ONE) :
    lwm2m_image_init cfg env w =
      if env.settings_save_one (advanced w.uc) ≠ 0 then
        (env.settings_save_one (advanced w.uc),
          { w with uc := advanced w.uc,
                   trace := w.trace ++ [Event.boot_write_img_confirmed, reset_event cfg,
                     Event.settings_save_one (advanced w.uc)] })
      else
        report_update_status cfg
          { w with uc := advanced w.uc,
                   trace := w.trace ++ [Event.boot_write_img_confirmed, reset_event cfg,
                     Event.settings_save_one (advanced w.uc)] }
          (advanced w.uc) 0 := by
  simp [lwm2m_image_init, fota_update_counter_read, hdev, hunc, hc, reset_bank1_eq, hr, hupd,
    World.emit, fota_update_counter_update, advanced]

/-- The status report returns `ret`, leaves everything but the trace alone
and adds at most the one `lwm2m_engine_set_u8` its branch makes. -/
theorem report_update_status_eq (cfg : Config) (w : World) (c : update_counter) (ret : Int) :
    report_update_status cfg w c ret =
      (ret, { w with trace := w.trace ++
        (if c.update ≠ MINUS_ONE ∧ c.current = c.update then
          [Event.lwm2m_engine_set_u8 UpdateResult.RESULT_SUCCESS]
        else if counter_gt cfg.counter_signed c.update c.current = true then
          [Event.lwm2m_engine_set_u8 UpdateResult.RESULT_UPDATE_FAILED]
        else []) }) := by
  unfold report_update_status
  split
  · rfl
  · split
    · rfl
    · simp

theorem counter_gt_irrefl (signed : Bool) (a : Nat) : counter_gt signed a a = false := by
  unfold counter_gt
  cases signed <;> simp

/-- For `int` fields, `-1 > current` is false for every non-negative
`current`. -/
theorem counter_gt_minus_one_nonneg (c : Nat) (h : c < 2147483648) :
    counter_gt true MINUS_ONE c = false := by
  unfold counter_gt to_int32 MINUS_ONE WORD32
  simp only [if_true, gt_iff_lt, decide_eq_false_iff_not, not_lt]
  split_ifs <;> omega

theorem advanced_eq_self (c : update_counter) (hwf : c.wf) (heq : c.update = c.current) :
    advanced c = c := by
  cases c with
  | mk cur upd =>
    simp only [update_counter.wf] at hwf
    simp only at heq
    subst heq
    simp [advanced, to_uint32, Nat.mod_eq_of_lt hwf.2]

/-- A failing confirmation or bank reset ends `lwm2m_image_init` at once. -/
theorem unconfirmed_boot_frame (cfg : Config) (env : Env) (w : World)
    (hdev : env.device_get_binding = true) (hunc : env.boot_is_img_confirmed = false) :
    (env.boot_write_img_confirmed ≠ 0 →
      lwm2m_image_init cfg env w =
        (env.boot_write_img_confirmed, w.emit Event.boot_write_img_confirmed)) ∧
    (env.boot_write_img_confirmed = 0 → reset_code cfg env ≠ 0 →
      lwm2m_image_init cfg env w =
        (reset_code cfg env,
          (w.emit Event.boot_write_img_confirmed).emit (reset_event cfg))) := by
  refine ⟨?_, ?_⟩
  · intro hc
    simp [lwm2m_image_init, fota_update_counter_read, hdev, hunc, hc]
  · intro hc hr
    simp [lwm2m_image_init, fota_update_counter_read, hdev, hunc, hc, reset_bank1_eq, hr]

/-! ## Boot-time image check: claims -/

/-- C4 (boot with an unconfirmed image): with the flash device found and
`boot_is_img_confirmed()` false, `lwm2m_image_init` confirms the image, then
resets bank 1, then, when `update != -1`, stores `current := update` (the
stored counter then has `current` equal to the old `update`, `update`
unchanged) and returns 0; a failing confirmation, bank reset or counter write
makes it return that non-zero code at once, with no later call and no status
report. -/
theorem unconfirmed_boot_confirms_and_advances (cfg : Config) (env : Env) (w : World)
    (hdev : env.device_get_binding = true) (hunc : env.boot_is_img_confirmed = false) :
    (env.boot_write_img_confirmed ≠ 0 →
      lwm2m_image_init cfg env w =
        (env.boot_write_img_confirmed, w.emit Event.boot_write_img_confirmed)) ∧
    (env.boot_write_img_confirmed = 0 → reset_code cfg env ≠ 0 →
      lwm2m_image_init cfg env w =
        (reset_code cfg env,
          (w.emit Event.boot_write_img_confirmed).emit (reset_event cfg))) ∧
    (env.boot_write_img_confirmed = 0 → reset_code cfg env = 0 →
      w.uc.update ≠ MINUS_ONE → env.settings_save_one (advanced w.uc) ≠ 0 →
      lwm2m_image_init cfg env w =
        (env.settings_save_one (advanced w.uc),
          { w with uc := advanced w.uc,
                   trace := w.trace ++ [Event.boot_write_img_confirmed, reset_event cfg,
                     Event.settings_save_one (advanced w.uc)] })) ∧
    (env.boot_write_img_confirmed = 0 → reset_code cfg env = 0 →
      w.uc.update ≠ MINUS_ONE → env.settings_save_one (advanced w.uc) = 0 →
      ∃ evs, lwm2m_image_init cfg env w =
          (0, { w with uc := advanced w.uc,
                       trace := w.trace ++ [Event.boot_write_img_confirmed, reset_event cfg,
                         Event.settings_save_one (advanced w.uc)] ++ evs }) ∧
        (advanced w.uc).update = w.uc.update ∧
        (w.uc.update < WORD32 → (advanced w.uc).current = w.uc.update)) ∧
    (env.boot_write_img_confirmed = 0 → reset_code cfg env = 0 → w.uc.update = MINUS_ONE →
      ∃ evs, lwm2m_image_init cfg env w =
          (0, { w with trace := w.trace ++
            [Event.boot_write_img_confirmed, reset_event cfg] ++ evs })) := by
  refine ⟨(unconfirmed_boot_frame cfg env w hdev hunc).1,
    (unconfirmed_boot_frame cfg env w hdev hunc).2, ?_, ?_, ?_⟩
  · intro hc hr hupd hs
    rw [image_init_unconfirmed_pending cfg env w hdev hunc hc hr hupd, if_pos hs]
  · intro hc hr hupd hs
    rw [image_init_unconfirmed_pending cfg env w hdev hunc hc hr hupd,
      if_neg (not_not.mpr hs), report_update_status_eq]
    refine ⟨_, rfl, rfl, ?_⟩
    intro hlt
    exact Nat.mod_eq_of_lt hlt
  · intro hc hr hupd
    rw [image_init_unconfirmed_idle cfg env w hdev hunc hc hr hupd, report_update_status_eq]
    refine ⟨(if w.uc.update ≠ MINUS_ONE ∧ w.uc.current = w.uc.update then
          [Event.lwm2m_engine_set_u8 UpdateResult.RESULT_SUCCESS]
        else if counter_gt cfg.counter_signed w.uc.update w.uc.current = true then
          [Event.lwm2m_engine_set_u8 UpdateResult.RESULT_UPDATE_FAILED]
        else []), ?_⟩
    simp [World.emit]

/-- Witness of C4: the counter `{current: 1, update: 2}` on an unconfirmed
image with every call succeeding ends as `{current: 2, update: 2}`. -/
theorem unconfirmed_boot_confirms_and_advances_witness :
    (env_ok.device_get_binding = true ∧ env_ok.boot_is_img_confirmed = false ∧
      env_ok.boot_write_img_confirmed = 0 ∧ reset_code cfg_progressive env_ok = 0 ∧
      world_pending.uc.update ≠ MINUS_ONE ∧
      env_ok.settings_save_one (advanced world_pending.uc) = 0) ∧
    ∃ evs, lwm2m_image_init cfg_progressive env_ok world_pending =
        (0, { world_pending with
              uc := advanced world_pending.uc,
              trace := world_pending.trace ++ [Event.boot_write_img_confirmed,
                reset_event cfg_progressive,
                Event.settings_save_one (advanced world_pending.uc)] ++ evs }) ∧
      (advanced world_pending.uc).update = world_pending.uc.update ∧
      (world_pending.uc.update < WORD32 →
        (advanced world_pending.uc).current = world_pending.uc.update) :=
  ⟨⟨rfl, rfl, rfl, rfl, by decide, rfl⟩,
    (unconfirmed_boot_confirms_and_advances cfg_progressive env_ok world_pending rfl rfl).2.2.2.1
      rfl rfl (by decide) rfl⟩

/-- C5 (confirmed image, pending update not applied): with the flash device
found and the image confirmed, for every counter with `update > current`,
`lwm2m_image_init` returns 0 and its only outside call is the one that sets
`RESULT_UPDATE_FAILED`; the stored counter and the rest of the state are
unchanged, so `current` is not advanced and `RESULT_SUCCESS` is not set. -/
theorem confirmed_boot_reports_failed (cfg : Config) (env : Env) (w : World)
    (hdev : env.device_get_binding = true) (hconf : env.boot_is_img_confirmed = true)
    (hgt : counter_gt cfg.counter_signed w.uc.update w.uc.current = true) :
    lwm2m_image_init cfg env w =
      (0, { w with trace := w.trace ++
        [Event.lwm2m_engine_set_u8 UpdateResult.RESULT_UPDATE_FAILED] }) := by
  have hne : w.uc.current ≠ w.uc.update := by
    intro h
    rw [h, counter_gt_irrefl] at hgt
    exact absurd hgt (by decide)
  rw [image_init_confirmed cfg env w hdev hconf, report_update_status_eq]
  simp [hne, hgt]

/-- Witness of C5: the counter `{current: 1, update: 2}` on a confirmed image
stays `{1, 2}` and `RESULT_UPDATE_FAILED` is set. -/
theorem confirmed_boot_reports_failed_witness :
    (env_confirmed.device_get_binding = true ∧ env_confirmed.boot_is_img_confirmed = true ∧
      counter_gt cfg_progressive.counter_signed world_pending.uc.update
        world_pending.uc.current = true) ∧
    lwm2m_image_init cfg_progressive env_confirmed world_pending =
      (0, { world_pending with trace := world_pending.trace ++
        [Event.lwm2m_engine_set_u8 UpdateResult.RESULT_UPDATE_FAILED] }) :=
  ⟨⟨rfl, rfl, by decide⟩,
    confirmed_boot_reports_failed cfg_progressive env_confirmed world_pending rfl rfl
      (by decide)⟩

/-- C6 fails as stated: the counter patterns `0xFFFFFFFE`, `0xFFFFFFFF`
(`{current: -2, update: -1}` for `int` fields) on a confirmed image make
`lwm2m_image_init` set `RESULT_UPDATE_FAILED`, whether the fields are compared
as signed or as unsigned values. -/
theorem no_pending_update_counterexample :
    world_negative.uc.update = MINUS_ONE ∧
    to_int32 world_negative.uc.update = -1 ∧ to_int32 world_negative.uc.current = -2 ∧
    lwm2m_image_init cfg_progressive env_confirmed world_negative =
      (0, { world_negative with trace :=
        [Event.lwm2m_engine_set_u8 UpdateResult.RESULT_UPDATE_FAILED] }) ∧
    lwm2m_image_init cfg_unsigned env_confirmed world_negative =
      (0, { world_negative with trace :=
        [Event.lwm2m_engine_set_u8 UpdateResult.RESULT_UPDATE_FAILED] }) := by
  refine ⟨rfl, by decide, by decide, by decide, by decide⟩

/-- C6 as amended: for every counter with `update == -1` and `current >= -1`,
that is with the code's comparison `update > current` false (for `int` fields
every `current` from -1 upward), image confirmed or not, the flash device
found and every bootloader call succeeding, `lwm2m_image_init` returns 0,
sets neither `RESULT_SUCCESS` nor `RESULT_UPDATE_FAILED`, writes nothing to
the counter store and leaves the stored counter unchanged. -/
theorem no_pending_update_reports_nothing (cfg : Config) (env : Env) (w : World)
    (hboot : env.boot_ok) (hupd : w.uc.update = MINUS_ONE)
    (hcmp : counter_gt cfg.counter_signed w.uc.update w.uc.current = false) :
    ∃ evs, lwm2m_image_init cfg env w = (0, { w with trace := w.trace ++ evs }) ∧
      (∀ r, Event.lwm2m_engine_set_u8 r ∉ evs) ∧
      (∀ c, Event.settings_save_one c ∉ evs) := by
  obtain ⟨hdev, hc, hinv, hbank⟩ := hboot
  have hr : reset_code cfg env = 0 := by
    unfold reset_code
    split
    · exact hinv
    · exact hbank
  have hrep : ∀ w0 : World, report_update_status cfg w0 w.uc 0 = (0, w0) := by
    intro w0
    rw [report_update_status_eq, if_neg (fun h => h.1 hupd), if_neg (by simp [hcmp])]
    simp
  by_cases hconf : env.boot_is_img_confirmed = true
  · refine ⟨[], ?_, by simp, by simp⟩
    rw [image_init_confirmed cfg env w hdev hconf, hrep]
    simp
  · have hunc : env.boot_is_img_confirmed = false := by simpa using hconf
    refine ⟨[Event.boot_write_img_confirmed, reset_event cfg], ?_, ?_, ?_⟩
    · rw [image_init_unconfirmed_idle cfg env w hdev hunc hc hr hupd, hrep]
      simp [World.emit]
    · intro r hmem
      unfold reset_event at hmem
      split at hmem <;> simp at hmem
    · intro c hmem
      unfold reset_event at hmem
      split at hmem <;> simp at hmem

/-- Witness of amended C6: the counter `{current: 1, update: -1}` with an
unconfirmed image. -/
theorem no_pending_update_reports_nothing_witness :
    (env_ok.boot_ok ∧ world_idle.uc.update = MINUS_ONE ∧
      counter_gt cfg_progressive.counter_signed world_idle.uc.update
        world_idle.uc.current = false) ∧
    ∃ evs, lwm2m_image_init cfg_progressive env_ok world_idle =
        (0, { world_idle with trace := world_idle.trace ++ evs }) ∧
      (∀ r, Event.lwm2m_engine_set_u8 r ∉ evs) ∧
      (∀ c, Event.settings_save_one c ∉ evs) :=
  ⟨⟨⟨rfl, rfl, rfl, rfl⟩, rfl, by decide⟩,
    no_pending_update_reports_nothing cfg_progressive env_ok world_idle ⟨rfl, rfl, rfl, rfl⟩ rfl
      (by decide)⟩

/-- C7 (update applied): for every counter with `update == current` and
`update != -1`, image confirmed or not, the flash device found and every
bootloader and store call succeeding, `lwm2m_image_init` returns 0, the calls
it makes set `RESULT_SUCCESS` exactly once and `RESULT_UPDATE_FAILED` never,
and the stored counter is what it was. -/
theorem equal_counter_reports_success (cfg : Config) (env : Env) (w : World)
    (hboot : env.boot_ok) (hstore : env.store_ok) (hwf : w.uc.wf)
    (heq : w.uc.update = w.uc.current) (hne : w.uc.update ≠ MINUS_ONE) :
    ∃ evs, lwm2m_image_init cfg env w = (0, { w with trace := w.trace ++ evs }) ∧
      evs.count (Event.lwm2m_engine_set_u8 UpdateResult.RESULT_SUCCESS) = 1 ∧
      evs.count (Event.lwm2m_engine_set_u8 UpdateResult.RESULT_UPDATE_FAILED) = 0 := by
  obtain ⟨hdev, hc, hinv, hbank⟩ := hboot
  have hr : reset_code cfg env = 0 := by
    unfold reset_code
    split
    · exact hinv
    · exact hbank
  have hrep : ∀ w0 : World, report_update_status cfg w0 w.uc 0 =
      (0, { w0 with trace := w0.trace ++
        [Event.lwm2m_engine_set_u8 UpdateResult.RESULT_SUCCESS] }) := by
    intro w0
    rw [report_update_status_eq, if_pos ⟨hne, heq.symm⟩]
  by_cases hconf : env.boot_is_img_confirmed = true
  · refine ⟨[Event.lwm2m_engine_set_u8 UpdateResult.RESULT_SUCCESS], ?_, by decide, by decide⟩
    rw [image_init_confirmed cfg env w hdev hconf, hrep]
  · have hunc : env.boot_is_img_confirmed = false := by simpa using hconf
    have hadv : advanced w.uc = w.uc := advanced_eq_self w.uc hwf heq
    refine ⟨[Event.boot_write_img_confirmed, reset_event cfg, Event.settings_save_one w.uc,
      Event.lwm2m_engine_set_u8 UpdateResult.RESULT_SUCCESS], ?_, ?_, ?_⟩
    · rw [image_init_unconfirmed_pending cfg env w hdev hunc hc hr hne, hadv,
        if_neg (not_not.mpr (hstore w.uc)), hrep]
      simp
    · unfold reset_event
      split <;> simp [List.count_cons]
    · unfold reset_event
      split <;> simp [List.count_cons]

/-- Witness of C7: the counter `{current: 2, update: 2}` on an unconfirmed
image. -/
theorem equal_counter_reports_success_witness :
    (env_ok.boot_ok ∧ env_ok.store_ok ∧ (world_updated 2).uc.wf ∧
      (world_updated 2).uc.update = (world_updated 2).uc.current ∧
      (world_updated 2).uc.update ≠ MINUS_ONE) ∧
    ∃ evs, lwm2m_image_init cfg_progressive env_ok (world_updated 2) =
        (0, { world_updated 2 with trace := (world_updated 2).trace ++ evs }) ∧
      evs.count (Event.lwm2m_engine_set_u8 UpdateResult.RESULT_SUCCESS) = 1 ∧
      evs.count (Event.lwm2m_engine_set_u8 UpdateResult.RESULT_UPDATE_FAILED) = 0 :=
  ⟨⟨⟨rfl, rfl, rfl, rfl⟩, fun _ => rfl, by decide, rfl, by decide⟩,
    equal_counter_reports_success cfg_progressive env_ok (world_updated 2) ⟨rfl, rfl, rfl, rfl⟩
      (fun _ => rfl) (by decide) rfl (by decide)⟩

/-! ## Counter invariant: claim -/

/-- The stored counter after `lwm2m_image_init` is the one before or, when an
update was pending, the advanced one. -/
theorem image_init_counter (cfg : Config) (env : Env) (w : World) :
    (lwm2m_image_init cfg env w).2.uc = w.uc ∨
    (w.uc.update ≠ MINUS_ONE ∧ (lwm2m_image_init cfg env w).2.uc = advanced w.uc) := by
  by_cases hdev : env.device_get_binding = true
  · by_cases hconf : env.boot_is_img_confirmed = true
    · left
      rw [image_init_confirmed cfg env w hdev hconf, report_update_status_eq]
    · have hunc : env.boot_is_img_confirmed = false := by simpa using hconf
      by_cases hc : env.boot_write_img_confirmed = 0
      · by_cases hr : reset_code cfg env = 0
        · by_cases hupd : w.uc.update = MINUS_ONE
          · left
            rw [image_init_unconfirmed_idle cfg env w hdev hunc hc hr hupd,
              report_update_status_eq]
            rfl
          · right
            refine ⟨hupd, ?_⟩
            rw [image_init_unconfirmed_pending cfg env w hdev hunc hc hr hupd]
            split
            · rfl
            · rw [report_update_status_eq]
        · left
          rw [((unconfirmed_boot_frame cfg env w hdev hunc).2 hc hr)]
          rfl
      · left
        rw [((unconfirmed_boot_frame cfg env w hdev hunc).1 hc)]
        rfl
  · left
    have hd : env.device_get_binding = false := by simpa using hdev
    simp [lwm2m_image_init, hd]

/-- The stored counter after `firmware_update_cb`, whatever the backend
returns. -/
theorem firmware_update_cb_counter (env : Env) (w : World) :
    (firmware_update_cb env w).2.uc = { w.uc with update := to_uint32 (w.uc.current + 1) } := by
  by_cases hs :
      env.settings_save_one { w.uc with update := to_uint32 (w.uc.current + 1) } = 0
  · simp [firmware_update_cb, fota_update_counter_read, fota_update_counter_update,
      World.emit, hs]
  · simp [firmware_update_cb, fota_update_counter_read, fota_update_counter_update,
      World.emit, hs]

/-- Below the largest value of `current`, `update := current + 1` gives
`update >= current`. -/
theorem commit_step_invariant (signed : Bool) (c : update_counter) (hcur : c.current < WORD32)
    (hmax : c.current ≠ counter_max signed) :
    counter_invariant signed { c with update := to_uint32 (c.current + 1) } := by
  right
  unfold counter_ge to_int32 to_uint32
  unfold counter_max at hmax
  unfold WORD32 at *
  cases signed
  · simp only [Bool.false_eq_true, if_false, ge_iff_le, decide_eq_true_eq] at hmax ⊢
    omega
  · simp only [if_true, ge_iff_le, decide_eq_true_eq] at hmax ⊢
    split_ifs <;> omega

/-- The advance `current := update` gives `update >= current`. -/
theorem advance_step_invariant (signed : Bool) (c : update_counter) (hupd : c.update < WORD32) :
    counter_invariant signed (advanced c) := by
  right
  unfold counter_ge advanced to_uint32
  cases signed
  · simp only [Bool.false_eq_true, if_false, ge_iff_le, decide_eq_true_eq]
    exact Nat.mod_le _ _
  · simp only [if_true, ge_iff_le, decide_eq_true_eq]
    rw [Nat.mod_eq_of_lt hupd]

/-- C9 fails as stated: at the largest value of `current` (`INT_MAX` for
`int` fields, `UINT32_MAX` for unsigned ones) the counter `{current: max,
update: max}` satisfies the invariant, and after `firmware_update_cb` the sum
`current + 1` has wrapped (to `INT_MIN`, resp. to 0), so `update` is neither
-1 nor at least `current`. -/
theorem counter_invariant_counterexample :
    counter_invariant true (world_updated 2147483647).uc ∧
    (firmware_update_cb env_ok (world_updated 2147483647)).2.uc = ⟨2147483647, 2147483648⟩ ∧
    to_int32 2147483648 = -2147483648 ∧
    ¬ counter_invariant true (firmware_update_cb env_ok (world_updated 2147483647)).2.uc ∧
    counter_invariant false (world_updated 4294967295).uc ∧
    (firmware_update_cb env_ok (world_updated 4294967295)).2.uc = ⟨4294967295, 0⟩ ∧
    ¬ counter_invariant false (firmware_update_cb env_ok (world_updated 4294967295)).2.uc := by
  refine ⟨by decide, by decide, by decide, by decide, by decide, by decide, by decide⟩

/-- C9 as amended: for every counter of 32-bit fields satisfying
`update == -1 OR update >= current`, the predicate holds again after the
commit step of `firmware_update_cb` (`update := current + 1`) whenever
`current` is not the largest representable value, and after
`lwm2m_image_init`, whose only change to the counter is the boot-time advance
`current := update` made when `update != -1`. -/
theorem counter_invariant_preserved (cfg : Config) (env : Env) (w : World)
    (hwf : w.uc.wf) (hinv : counter_invariant cfg.counter_signed w.uc) :
    (w.uc.current ≠ counter_max cfg.counter_signed →
      counter_invariant cfg.counter_signed (firmware_update_cb env w).2.uc) ∧
    counter_invariant cfg.counter_signed (lwm2m_image_init cfg env w).2.uc ∧
    (w.uc.update ≠ MINUS_ONE → counter_invariant cfg.counter_signed (advanced w.uc)) := by
  refine ⟨?_, ?_, ?_⟩
  · intro hmax
    rw [firmware_update_cb_counter]
    exact commit_step_invariant cfg.counter_signed w.uc hwf.1 hmax
  · rcases image_init_counter cfg env w with h | h
    · rw [h]
      exact hinv
    · rw [h.2]
      exact advance_step_invariant cfg.counter_signed w.uc hwf.2
  · intro _
    exact advance_step_invariant cfg.counter_signed w.uc hwf.2

/-- Witness of amended C9: the counter `{current: 1, update: 2}`. -/
theorem counter_invariant_preserved_witness :
    (world_pending.uc.wf ∧ counter_invariant cfg_progressive.counter_signed world_pending.uc ∧
      world_pending.uc.current ≠ counter_max cfg_progressive.counter_signed) ∧
    counter_invariant cfg_progressive.counter_signed
      (firmware_update_cb env_ok world_pending).2.uc ∧
    counter_invariant cfg_progressive.counter_signed
      (lwm2m_image_init cfg_progressive env_ok world_pending).2.uc :=
  ⟨⟨by decide, by decide, by decide⟩,
    (counter_invariant_preserved cfg_progressive env_ok world_pending (by decide)
      (by decide)).1 (by decide),
    (counter_invariant_preserved cfg_progressive env_ok world_pending (by decide)
      (by decide)).2.1⟩

/-! ## Sessions: lemmas -/

theorem emitted_percents_append (a b : List Event) :
    emitted_percents (a ++ b) = emitted_percents a ++ emitted_percents b := by
  induction a with
  | nil => rfl
  | cons e es ih =>
    cases e <;> simp [emitted_percents, ih]

theorem emitted_percents_erase (size : Nat) (evs : List Event)
    (h : ∀ e ∈ evs, ∃ off, e = Event.flash_erase off size) : emitted_percents evs = [] := by
  induction evs with
  | nil => rfl
  | cons e es ih =>
    obtain ⟨off, he⟩ := h e (List.mem_cons_self _ _)
    subst he
    simp only [emitted_percents]
    exact ih (fun e' he' => h e' (List.mem_cons_of_mem _ he'))

/-- The first-block step: its two calls, its return code and what it leaves
alone. -/
theorem session_start_trace (cfg : Config) (env : Env) (w : World) :
    (session_start cfg env w).1 = reset_code cfg env ∧
    (session_start cfg env w).2.trace = w.trace ++ [Event.flash_img_init, reset_event cfg] ∧
    (session_start cfg env w).2.bytes_downloaded = w.bytes_downloaded ∧
    (session_start cfg env w).2.percent_downloaded = w.percent_downloaded ∧
    (session_start cfg env w).2.last_offset = w.last_offset ∧
    (session_start cfg env w).2.dfu_bytes_written = 0 := by
  unfold session_start reset_code reset_event
  split <;> simp [World.emit]

theorem reset_code_ok (cfg : Config) (env : Env) (hok : env.flash_ok) : reset_code cfg env = 0 := by
  unfold reset_code
  split
  · exact hok.1
  · exact hok.2.1

theorem emitted_percents_reset (cfg : Config) :
    emitted_percents [Event.flash_img_init, reset_event cfg] = [] := by
  unfold reset_event
  split <;> rfl

/-- A block that is not the last one and whose write succeeds: the write is
recorded and the call returns 0 with the session counters kept. -/
theorem write_block_more (cfg : Config) (env : Env) (w : World) (data_len total_size : Nat)
    (hok : env.flash_ok) :
    write_block cfg env w data_len false total_size =
      (0, { w with
              trace := w.trace ++ [Event.flash_img_buffered_write data_len false],
              dfu_bytes_written :=
                (env.flash_img_buffered_write w.dfu_bytes_written data_len false).2 }) := by
  unfold write_block
  simp only [hok.2.2.2, lt_self_iff_false, if_false, if_true, World.emit]

/-- With every flash call succeeding, a block that passes the entry checks
reaches the buffered write; by then `bytes_downloaded` has been advanced, the
progress display has been made and nothing else has been logged. -/
theorem block_call_normal_form (cfg : Config) (env : Env) (w : World)
    (data_len : Nat) (last_block : Bool) (total_size : Nat) (hok : env.flash_ok)
    (hfit : total_size ≤ cfg.FLASH_BANK1_SIZE) (hlen : data_len ≠ 0) :
    ∃ w2 evs, firmware_block_received_cb cfg env w data_len last_block total_size =
        some (write_block cfg env w2 data_len last_block total_size) ∧
      w2.bytes_downloaded = to_uint32 (w.bytes_downloaded + data_len) ∧
      w2.percent_downloaded =
        next_percent w.percent_downloaded (to_uint32 (w.bytes_downloaded + data_len))
          total_size ∧
      w2.trace = w.trace ++ evs ∧
      emitted_percents evs =
        percent_log w.percent_downloaded (to_uint32 (w.bytes_downloaded + data_len))
          total_size := by
  -- the first-block step
  obtain ⟨r0, hr0, hz0, hbd0, hpd0, evs0, htr0, hem0⟩ :
      ∃ r0 : Int × World,
        r0 = (if w.bytes_downloaded = 0 then session_start cfg env w else (0, w)) ∧
        r0.1 = 0 ∧ r0.2.bytes_downloaded = w.bytes_downloaded ∧
        r0.2.percent_downloaded = w.percent_downloaded ∧
        ∃ evs0, r0.2.trace = w.trace ++ evs0 ∧ emitted_percents evs0 = [] := by
    refine ⟨_, rfl, ?_⟩
    split
    · obtain ⟨h1, h2, h3, h4, _, _⟩ := session_start_trace cfg env w
      exact ⟨by rw [h1, reset_code_ok cfg env hok], h3, h4, _, h2, emitted_percents_reset cfg⟩
    · exact ⟨rfl, rfl, rfl, [], by simp, rfl⟩
  unfold firmware_block_received_cb
  simp only [gt_iff_lt, not_lt.mpr hfit, if_false, hlen]
  rw [← hr0, if_neg (not_not.mpr hz0)]
  -- the state after the progress display
  generalize hw1 : (if percent_of (to_uint32 (r0.2.bytes_downloaded + data_len)) total_size >
        r0.2.percent_downloaded then
      World.emit { r0.2 with
          bytes_downloaded := to_uint32 (r0.2.bytes_downloaded + data_len),
          percent_downloaded :=
            percent_of (to_uint32 (r0.2.bytes_downloaded + data_len)) total_size }
        (Event.log_percent (percent_of (to_uint32 (r0.2.bytes_downloaded + data_len)) total_size))
    else { r0.2 with bytes_downloaded := to_uint32 (r0.2.bytes_downloaded + data_len) }) = w1
  obtain ⟨evs1, hbd1, hpd1, htr1, hem1⟩ :
      ∃ evs1, w1.bytes_downloaded = to_uint32 (w.bytes_downloaded + data_len) ∧
        w1.percent_downloaded =
          next_percent w.percent_downloaded (to_uint32 (w.bytes_downloaded + data_len))
            total_size ∧
        w1.trace = w.trace ++ evs1 ∧
        emitted_percents evs1 =
          percent_log w.percent_downloaded (to_uint32 (w.bytes_downloaded + data_len))
            total_size := by
    rw [← hw1, hbd0, hpd0]
    unfold next_percent percent_log
    split
    · refine ⟨evs0 ++ [Event.log_percent
        (percent_of (to_uint32 (w.bytes_downloaded + data_len)) total_size)], rfl, rfl, ?_, ?_⟩
      · simp [World.emit, htr0]
      · rw [emitted_percents_append, hem0]
        rfl
    · exact ⟨evs0, rfl, hpd0, htr0, hem0⟩
  by_cases hp : cfg.CONFIG_FOTA_ERASE_PROGRESSIVELY = true
  · rw [if_pos hp]
    obtain ⟨ret, w2, evs2, heq, _, hbd2, hpd2, _, htr2, hfl2, hok2⟩ :=
      erase_loop_spec cfg env (erase_fuel cfg w1) w1 (le_refl _)
    have hret : ret = 0 := hok2 hok.2.2.1
    subst hret
    rw [heq]
    refine ⟨w2, evs1 ++ evs2, ?_, by rw [hbd2, hbd1], by rw [hpd2, hpd1], ?_, ?_⟩
    · simp
    · rw [htr2, htr1, List.append_assoc]
    · rw [emitted_percents_append, hem1,
        emitted_percents_erase cfg.DT_FLASH_ERASE_BLOCK_SIZE evs2 hfl2, List.append_nil]
  · rw [if_neg hp]
    exact ⟨w1, evs1, rfl, hbd1, hpd1, htr1, hem1⟩

/-- One call with every flash call succeeding, on a block that passes the
entry checks: the return code, the percentage logged and the session counters
afterwards. -/
theorem block_call_spec (cfg : Config) (env : Env) (w : World)
    (data_len : Nat) (last_block : Bool) (total_size : Nat) (hok : env.flash_ok)
    (hfit : total_size ≤ cfg.FLASH_BANK1_SIZE) (hlen : data_len ≠ 0) :
    ∃ w' evs, firmware_block_received_cb cfg env w data_len last_block total_size =
        some (if last_block = true ∧ total_size ≠ 0 ∧
                to_uint32 (w.bytes_downloaded + data_len) ≠ total_size then - EIO else 0, w') ∧
      w'.trace = w.trace ++ evs ∧
      emitted_percents evs =
        percent_log w.percent_downloaded (to_uint32 (w.bytes_downloaded + data_len))
          total_size ∧
      (last_block = false →
        w'.bytes_downloaded = to_uint32 (w.bytes_downloaded + data_len) ∧
        w'.percent_downloaded =
          next_percent w.percent_downloaded (to_uint32 (w.bytes_downloaded + data_len))
            total_size) ∧
      (last_block = true → w'.bytes_downloaded = 0 ∧ w'.percent_downloaded = 0) := by
  obtain ⟨w2, evs, heq, hbd, hpd, htr, hem⟩ :=
    block_call_normal_form cfg env w data_len last_block total_size hok hfit hlen
  cases last_block
  · rw [write_block_more cfg env w2 data_len total_size hok] at heq
    refine ⟨{ w2 with
        trace := w2.trace ++ [Event.flash_img_buffered_write data_len false],
        dfu_bytes_written :=
          (env.flash_img_buffered_write w2.dfu_bytes_written data_len false).2 },
      evs ++ [Event.flash_img_buffered_write data_len false], ?_, ?_, ?_, ?_, ?_⟩
    · rw [heq]
      simp
    · simp [htr]
    · rw [emitted_percents_append, hem]
      simp [emitted_percents]
    · intro _
      exact ⟨hbd, hpd⟩
    · intro h
      exact absurd h (by decide)
  · obtain ⟨b1, b2, _, _, b5, b6⟩ := write_block_last cfg env w2 data_len total_size
    refine ⟨(write_block cfg env w2 data_len true total_size).2,
      evs ++ [Event.flash_img_buffered_write data_len true], ?_, ?_, ?_, ?_, ?_⟩
    · rw [heq]
      refine congrArg some (Prod.ext ?_ rfl)
      rw [b6 hok, hbd]
      simp
    · rw [b5, htr, List.append_assoc]
    · rw [emitted_percents_append, hem]
      simp [emitted_percents]
    · intro h
      exact absurd h (by decide)
    · intro _
      exact ⟨b1, b2⟩

theorem one_session_tail (b : Block) (bs : List Block) (h : one_session (b :: bs)) :
    one_session bs := by
  cases bs with
  | nil => trivial
  | cons b2 bs => exact h.2

theorem percent_log_gt (pd bd ts : Nat) : ∀ p ∈ percent_log pd bd ts, pd < p := by
  intro p hp
  unfold percent_log at hp
  split at hp
  · rw [List.mem_singleton.mp hp]
    assumption
  · simp at hp

theorem percent_log_next (pd bd ts : Nat) : ∀ p ∈ percent_log pd bd ts, next_percent pd bd ts = p := by
  intro p hp
  unfold percent_log at hp
  unfold next_percent
  split at hp
  · rw [List.mem_singleton.mp hp, if_pos (by assumption)]
  · simp at hp

theorem next_percent_ge (pd bd ts : Nat) : pd ≤ next_percent pd bd ts := by
  unfold next_percent
  split
  · exact Nat.le_of_lt (by assumption)
  · exact Nat.le_refl _

theorem percent_log_pairwise (pd bd ts : Nat) : (percent_log pd bd ts).Pairwise (· < ·) := by
  unfold percent_log
  split <;> simp

/-- A block stopped by an entry check leaves the state as it was. -/
theorem block_call_rejected (cfg : Config) (env : Env) (w : World)
    (data_len : Nat) (last_block : Bool) (total_size : Nat)
    (h : ¬ (total_size ≤ cfg.FLASH_BANK1_SIZE ∧ data_len ≠ 0)) :
    firmware_block_received_cb cfg env w data_len last_block total_size =
      some (-EINVAL, w) := by
  unfold firmware_block_received_cb
  by_cases hb : total_size > cfg.FLASH_BANK1_SIZE
  · rw [if_pos hb]
  · have hl : data_len = 0 := by
      by_contra hne
      exact h ⟨not_lt.mp hb, hne⟩
    rw [if_neg hb, if_pos hl]

/-- Within one session with every flash call succeeding, every call returns
and the percentages logged are strictly increasing and above the value of
`percent_downloaded` at the start. -/
theorem deliver_monotone (cfg : Config) (env : Env) (hok : env.flash_ok) :
    ∀ (bs : List Block) (w : World), one_session bs →
      ∃ rets w' evs, deliver cfg env w bs = some (rets, w') ∧ w'.trace = w.trace ++ evs ∧
        (∀ p ∈ emitted_percents evs, w.percent_downloaded < p) ∧
        (emitted_percents evs).Pairwise (· < ·) := by
  intro bs
  induction bs with
  | nil =>
    intro w _
    exact ⟨[], w, [], rfl, by simp, by simp [emitted_percents], by simp [emitted_percents]⟩
  | cons b bs ih =>
    intro w hs
    have hs' := one_session_tail b bs hs
    by_cases hentry : b.total_size ≤ cfg.FLASH_BANK1_SIZE ∧ b.data_len ≠ 0
    · obtain ⟨w1, evs1, heq0, htr1, hem1, hmore, _⟩ :=
        block_call_spec cfg env w b.data_len b.last_block b.total_size hok hentry.1 hentry.2
      obtain ⟨ret, heq⟩ : ∃ ret, firmware_block_received_cb cfg env w b.data_len b.last_block
          b.total_size = some (ret, w1) := ⟨_, heq0⟩
      cases bs with
      | nil =>
        refine ⟨[ret], w1, evs1, ?_, htr1, ?_, ?_⟩
        · simp only [deliver, heq]
        · rw [hem1]
          exact percent_log_gt _ _ _
        · rw [hem1]
          exact percent_log_pairwise _ _ _
      | cons b2 bs =>
        obtain ⟨_, hpd1⟩ := hmore hs.1
        obtain ⟨rets, w', evs2, hd, htr2, hgt2, hpw2⟩ := ih w1 hs'
        have hgt1 : ∀ p ∈ emitted_percents evs2, w.percent_downloaded < p := by
          intro p hp
          have h2 := hgt2 p hp
          rw [hpd1] at h2
          exact lt_of_le_of_lt (next_percent_ge _ _ _) h2
        refine ⟨ret :: rets, w', evs1 ++ evs2, ?_, ?_, ?_, ?_⟩
        · simp only [deliver, heq]
          simp only [deliver] at hd
          rw [hd]
        · rw [htr2, htr1, List.append_assoc]
        · rw [emitted_percents_append, hem1]
          intro p hp
          rcases List.mem_append.mp hp with h | h
          · exact percent_log_gt _ _ _ p h
          · exact hgt1 p h
        · rw [emitted_percents_append, hem1, List.pairwise_append]
          refine ⟨percent_log_pairwise _ _ _, hpw2, ?_⟩
          intro a ha c hc
          have h2 := hgt2 c hc
          rw [hpd1, percent_log_next _ _ _ a ha] at h2
          exact h2
    · have hcb := block_call_rejected cfg env w b.data_len b.last_block b.total_size hentry
      obtain ⟨rets, w', evs, hd, htr, hgt, hpw⟩ := ih w hs'
      refine ⟨(-EINVAL) :: rets, w', evs, ?_, htr, hgt, hpw⟩
      simp only [deliver, hcb]
      rw [hd]

theorem percent_of_full (T : Nat) (hT : T ≠ 0) (h100 : T * 100 < WORD32) :
    percent_of T T = 100 := by
  unfold percent_of
  rw [if_pos hT, Nat.mod_eq_of_lt h100, Nat.mul_div_cancel_left 100 (Nat.pos_of_ne_zero hT)]

theorem percent_of_partial (x T : Nat) (hx : x < T) (h100 : T * 100 < WORD32) :
    percent_of x T < 100 := by
  unfold percent_of
  have hT : T ≠ 0 := by omega
  have hx100 : x * 100 < WORD32 := by omega
  rw [if_pos hT, Nat.mod_eq_of_lt hx100]
  have hq : x * 100 / T < 100 := by
    rw [Nat.div_lt_iff_lt_mul (Nat.pos_of_ne_zero hT)]
    omega
  exact lt_of_le_of_lt (Nat.mod_le _ _) hq

theorem to_uint32_of_lt (x : Nat) (h : x < WORD32) : to_uint32 x = x :=
  Nat.mod_eq_of_lt h

/-- A transfer whose block lengths add up to the declared size `T`, with
`T * 100` below 2^32: every call returns 0 and the last percentage logged is
100. -/
theorem deliver_final_percent (cfg : Config) (env : Env) (hok : env.flash_ok) (T : Nat)
    (hfit : T ≤ cfg.FLASH_BANK1_SIZE) (h100 : T * 100 < WORD32) :
    ∀ (lens : List Nat) (w : World), lens ≠ [] → (∀ l ∈ lens, l ≠ 0) →
      w.bytes_downloaded + lens.sum = T → w.percent_downloaded < 100 →
      ∃ rets w' evs, deliver cfg env w (session_blocks T lens) = some (rets, w') ∧
        rets.getLast? = some 0 ∧ (∀ r ∈ rets, r = 0) ∧ w'.trace = w.trace ++ evs ∧
        (emitted_percents evs).getLast? = some 100 := by
  have hTlt : T < WORD32 := by
    unfold WORD32 at h100 ⊢
    omega
  intro lens
  induction lens with
  | nil =>
    intro w hne
    exact absurd rfl hne
  | cons l ls ih =>
    intro w _ hpos hsum hpd
    have hl : l ≠ 0 := hpos l (List.mem_cons_self _ _)
    cases ls with
    | nil =>
      have hbd : w.bytes_downloaded + l = T := by simpa using hsum
      have hT : T ≠ 0 := by omega
      obtain ⟨w1, evs1, heq, htr1, hem1, _, _⟩ :=
        block_call_spec cfg env w l true T hok hfit hl
      rw [hbd, to_uint32_of_lt T hTlt] at heq hem1
      rw [if_neg (fun h => h.2.2 rfl)] at heq
      refine ⟨[0], w1, evs1, ?_, rfl, by simp, htr1, ?_⟩
      · simp only [session_blocks, deliver, heq]
      · rw [hem1]
        unfold percent_log
        rw [percent_of_full T hT h100, if_pos hpd]
        rfl
    | cons l2 rest =>
      have hl2 : l2 ≠ 0 := hpos l2 (List.mem_cons_of_mem _ (List.mem_cons_self _ _))
      have hsum' : w.bytes_downloaded + l + (l2 :: rest).sum = T := by
        simp only [List.sum_cons] at hsum ⊢
        omega
      have hlt : w.bytes_downloaded + l < T := by
        simp only [List.sum_cons] at hsum'
        omega
      obtain ⟨w1, evs1, heq, htr1, hem1, hmore, _⟩ :=
        block_call_spec cfg env w l false T hok hfit hl
      rw [to_uint32_of_lt _ (lt_trans hlt hTlt)] at heq hem1 hmore
      rw [if_neg (fun h => absurd h.1 (by decide))] at heq
      obtain ⟨hbd1, hpd1⟩ := hmore rfl
      have hpd1' : w1.percent_downloaded < 100 := by
        rw [hpd1]
        unfold next_percent
        split
        · exact percent_of_partial _ _ hlt h100
        · exact hpd
      obtain ⟨rets, w', evs2, hd, hlast, hall, htr2, hem2⟩ :=
        ih w1 (by simp) (fun x hx => hpos x (List.mem_cons_of_mem _ hx))
          (by rw [hbd1]; exact hsum') hpd1'
      refine ⟨0 :: rets, w', evs1 ++ evs2, ?_, ?_, ?_, ?_, ?_⟩
      · simp only [session_blocks, deliver, heq]
        rw [hd]
      · cases rets with
        | nil => simp at hlast
        | cons r rs => simpa [List.getLast?_cons_cons] using hlast
      · intro r hr
        rcases List.mem_cons.mp hr with h | h
        · exact h
        · exact hall r h
      · rw [htr2, htr1, List.append_assoc]
      · rw [emitted_percents_append, List.getLast?_append, hem2]
        rfl

theorem session_blocks_one_session (T : Nat) :
    ∀ lens : List Nat, one_session (session_blocks T lens) := by
  intro lens
  induction lens with
  | nil => trivial
  | cons l ls ih =>
    cases ls with
    | nil => trivial
    | cons l2 rest =>
      cases rest with
      | nil => exact ⟨rfl, trivial⟩
      | cons l3 rest2 => exact ⟨rfl, ih⟩

/-! ## Progress display: claim -/

/-- C11 fails as stated: a transfer of 42949673 bytes (at most the bank size
of `cfg_large`) in 656 non-empty blocks whose lengths add up to that size, the
last one marked `last_block`, with every flash call succeeding.  The last call
returns 0, but `42949673 * 100` is `2^32 + 4`, so the percentage computed for
the last block is 0 and the last percentage logged is 99. -/
theorem final_percent_counterexample :
    big_transfer.sum = 42949673 ∧
    big_transfer.all (fun l => decide (l ≠ 0 ∧ l ≤ 65535)) = true ∧
    42949673 ≤ cfg_large.FLASH_BANK1_SIZE ∧
    percent_of 42949673 42949673 = 0 ∧
    (deliver cfg_large env_ok world_start (session_blocks 42949673 big_transfer)).map
      (fun r => (r.1.getLast?, (emitted_percents r.2.trace).getLast?)) =
        some (some 0, some 99) := by
  refine ⟨by decide!, by decide!, by decide, by decide, by decide!⟩

/-- C11 as amended: within one session (no block before the final one marked
`last_block`) with every flash call succeeding, every call returns and the
percentages logged form a strictly increasing sequence; and when the session
starts from `bytes_downloaded = 0`, `percent_downloaded = 0` and is a transfer
of non-empty blocks with a constant `total_size <= FLASH_BANK1_SIZE` whose
lengths add up to `total_size`, the last one marked `last_block`, and
`total_size * 100 < 2^32`, the last percentage logged is 100 and the last
call returns 0. -/
theorem progress_monotone_and_complete (cfg : Config) (env : Env) (w : World)
    (bs : List Block) (hok : env.flash_ok) (hs : one_session bs) :
    ∃ rets w' evs, deliver cfg env w bs = some (rets, w') ∧ w'.trace = w.trace ++ evs ∧
      (emitted_percents evs).Pairwise (· < ·) ∧
      (∀ (T : Nat) (lens : List Nat), bs = session_blocks T lens → lens ≠ [] →
        (∀ l ∈ lens, l ≠ 0) → lens.sum = T → T ≤ cfg.FLASH_BANK1_SIZE → T * 100 < WORD32 →
        w.bytes_downloaded = 0 → w.percent_downloaded = 0 →
        (emitted_percents evs).getLast? = some 100 ∧ rets.getLast? = some 0) := by
  obtain ⟨rets, w', evs, hd, htr, _, hpw⟩ := deliver_monotone cfg env hok bs w hs
  refine ⟨rets, w', evs, hd, htr, hpw, ?_⟩
  intro T lens hbs hne hpos hsum hfit h100 hbd hpd
  obtain ⟨rets2, w2, evs2, hd2, hlast, _, htr2, hem2⟩ :=
    deliver_final_percent cfg env hok T hfit h100 lens w hne hpos
      (by rw [hbd, Nat.zero_add]; exact hsum) (by rw [hpd]; decide)
  rw [← hbs, hd] at hd2
  have hr : rets = rets2 := congrArg Prod.fst (Option.some.inj hd2)
  have hw : w' = w2 := congrArg Prod.snd (Option.some.inj hd2)
  subst hr
  subst hw
  have he : evs = evs2 := List.append_cancel_left (htr.symm.trans htr2)
  subst he
  exact ⟨hem2, hlast⟩

/-- Witness of amended C11: three blocks of 100 bytes with `total_size = 300`;
the percentages logged are 33, 66, 100 and every call returns 0. -/
theorem progress_monotone_and_complete_witness :
    (env_ok.flash_ok ∧ one_session (session_blocks 300 [100, 100, 100])) ∧
    (deliver cfg_progressive env_ok world_start (session_blocks 300 [100, 100, 100])).map
      (fun r => (r.1, emitted_percents r.2.trace)) = some ([0, 0, 0], [33, 66, 100]) ∧
    ∃ rets w' evs,
      deliver cfg_progressive env_ok world_start (session_blocks 300 [100, 100, 100]) =
        some (rets, w') ∧
      w'.trace = world_start.trace ++ evs ∧
      (emitted_percents evs).Pairwise (· < ·) ∧
      (emitted_percents evs).getLast? = some 100 ∧ rets.getLast? = some 0 := by
  refine ⟨⟨env_ok_flash_ok, ⟨rfl, rfl, trivial⟩⟩, by decide!, ?_⟩
  obtain ⟨rets, w', evs, hd, htr, hpw, hfin⟩ :=
    progress_monotone_and_complete cfg_progressive env_ok world_start
      (session_blocks 300 [100, 100, 100]) env_ok_flash_ok ⟨rfl, rfl, trivial⟩
  exact ⟨rets, w', evs, hd, htr, hpw,
    hfin 300 [100, 100, 100] rfl (by decide) (by decide) (by decide) (by decide) (by decide)
      rfl rfl⟩

/-! ## Progressive erase: lemma and claim -/

/-- Where the erase loop is safe: with the bank a multiple of the erase block,
the cursor aligned to erase blocks from the bank start, and the write position
at least one erase block short of the bank size, the loop finishes and every
sector it erases lies inside the bank, whatever the erase calls return. -/
theorem erase_loop_in_bank (cfg : Config) (env : Env) (k : Nat)
    (hsize : cfg.FLASH_BANK1_SIZE = k * cfg.DT_FLASH_ERASE_BLOCK_SIZE) :
    ∀ (fuel : Nat) (w : World) (j : Nat),
      w.last_offset = cfg.FLASH_BANK1_OFFSET + j * cfg.DT_FLASH_ERASE_BLOCK_SIZE →
      w.dfu_bytes_written + cfg.DT_FLASH_ERASE_BLOCK_SIZE ≤ cfg.FLASH_BANK1_SIZE →
      erase_fuel cfg w ≤ fuel →
      ∃ ret w' evs, erase_loop cfg env fuel w = some (ret, w') ∧ w'.trace = w.trace ++ evs ∧
        ∀ s ∈ erased_sectors evs, sector_in_bank cfg s.1 s.2 := by
  have hpos := cfg.erase_block_pos
  intro fuel
  induction fuel with
  | zero =>
    intro w j _ _ hf
    unfold erase_fuel at hf
    have hc : ¬ w.last_offset <
        cfg.FLASH_BANK1_OFFSET + w.dfu_bytes_written + cfg.DT_FLASH_ERASE_BLOCK_SIZE := by omega
    refine ⟨0, w, [], ?_, by simp, by simp [erased_sectors]⟩
    unfold erase_loop
    simp [hc]
  | succ n ih =>
    intro w j hj hbw hf
    by_cases hc : w.last_offset <
        cfg.FLASH_BANK1_OFFSET + w.dfu_bytes_written + cfg.DT_FLASH_ERASE_BLOCK_SIZE
    · -- the sector about to be erased is inside the bank
      have hjk : j < k := by
        have h1 : j * cfg.DT_FLASH_ERASE_BLOCK_SIZE < k * cfg.DT_FLASH_ERASE_BLOCK_SIZE := by
          rw [← hsize]
          omega
        exact Nat.lt_of_mul_lt_mul_right h1
      have hin : sector_in_bank cfg w.last_offset cfg.DT_FLASH_ERASE_BLOCK_SIZE := by
        have h2 : (j + 1) * cfg.DT_FLASH_ERASE_BLOCK_SIZE ≤
            k * cfg.DT_FLASH_ERASE_BLOCK_SIZE := Nat.mul_le_mul_right _ hjk
        rw [Nat.add_mul, Nat.one_mul, ← hsize] at h2
        unfold sector_in_bank
        omega
      by_cases hr : env.flash_erase w.last_offset = 0
      · have hf' : erase_fuel cfg
            { w.emit (Event.flash_erase w.last_offset cfg.DT_FLASH_ERASE_BLOCK_SIZE) with
              last_offset := w.last_offset + cfg.DT_FLASH_ERASE_BLOCK_SIZE } ≤ n := by
          unfold erase_fuel at hf ⊢
          simp only [World.emit]
          omega
        obtain ⟨ret, w', evs, heq, htr, hall⟩ := ih
          { w.emit (Event.flash_erase w.last_offset cfg.DT_FLASH_ERASE_BLOCK_SIZE) with
            last_offset := w.last_offset + cfg.DT_FLASH_ERASE_BLOCK_SIZE } (j + 1)
          (by simp only [World.emit]; rw [hj, Nat.add_mul, Nat.one_mul, Nat.add_assoc])
          hbw hf'
        refine ⟨ret, w', Event.flash_erase w.last_offset cfg.DT_FLASH_ERASE_BLOCK_SIZE :: evs,
          ?_, ?_, ?_⟩
        · rw [erase_loop]
          simp only [hc, if_true, hr, ne_eq, not_true_eq_false, if_false]
          exact heq
        · simpa [World.emit] using htr
        · intro s hs
          simp only [erased_sectors, List.mem_cons] at hs
          rcases hs with h | h
          · rw [h]
            exact hin
          · exact hall s h
      · refine ⟨env.flash_erase w.last_offset,
          { w.emit (Event.flash_erase w.last_offset cfg.DT_FLASH_ERASE_BLOCK_SIZE) with
            last_offset := w.last_offset + cfg.DT_FLASH_ERASE_BLOCK_SIZE },
          [Event.flash_erase w.last_offset cfg.DT_FLASH_ERASE_BLOCK_SIZE], ?_, ?_, ?_⟩
        · rw [erase_loop]
          simp only [hc, if_true, ne_eq, hr, not_false_eq_true]
          rfl
        · simp [World.emit]
        · intro s hs
          simp only [erased_sectors, List.mem_singleton] at hs
          rw [hs]
          exact hin
    · refine ⟨0, w, [], ?_, by simp, by simp [erased_sectors]⟩
      unfold erase_loop
      simp [hc]

/-- C12 at failing inputs.  First, under `cfg_progressive` (48 erase blocks
of 4 KiB at 0x40000) with `last_offset = 0x6F000`, the last block of the bank,
and `bytes_written = 0x2F800 <= FLASH_BANK1_SIZE`: the loop finishes, and a
call with a 1024-byte block erases the sector at 0x6F000 and then the sector
at 0x70000, the first one past the bank.  Second, an ordinary transfer into a
bank of two erase blocks (`cfg_two_sectors`), eight blocks of 1024 bytes with
`total_size` equal to the bank size, from the reset state: every call returns
0 and the sector at 0x42000, past the bank, is erased; after five blocks the
cursor is at 0x42000 with 5120 bytes written, and the sixth call erases that
sector. -/
theorem progressive_erase_past_bank_end :
    cfg_progressive.FLASH_BANK1_SIZE = 48 * cfg_progressive.DT_FLASH_ERASE_BLOCK_SIZE ∧
    world_near_end.last_offset =
      cfg_progressive.FLASH_BANK1_OFFSET + 47 * cfg_progressive.DT_FLASH_ERASE_BLOCK_SIZE ∧
    world_near_end.dfu_bytes_written ≤ cfg_progressive.FLASH_BANK1_SIZE ∧
    (erase_loop cfg_progressive env_ok (erase_fuel cfg_progressive world_near_end)
        world_near_end).map (fun r => (r.1, erased_sectors r.2.trace)) =
      some (0, [(0x6F000, 4096), (0x70000, 4096)]) ∧
    (firmware_block_received_cb cfg_progressive env_ok world_near_end 1024 false 0x30000).map
        (fun r => (r.1, erased_sectors r.2.trace)) =
      some (0, [(0x6F000, 4096), (0x70000, 4096)]) ∧
    ¬ sector_in_bank cfg_progressive 0x70000 4096 ∧
    (deliver cfg_two_sectors env_ok world_start
        (session_blocks 0x2000 [1024, 1024, 1024, 1024, 1024, 1024, 1024, 1024])).map
        (fun r => (r.1, erased_sectors r.2.trace)) =
      some ([0, 0, 0, 0, 0, 0, 0, 0], [(0x40000, 4096), (0x41000, 4096), (0x42000, 4096)]) ∧
    (deliver cfg_two_sectors env_ok world_start
        (List.replicate 5 ⟨1024, false, 0x2000⟩)).map
        (fun r => (r.2.last_offset, r.2.dfu_bytes_written, erased_sectors r.2.trace)) =
      some (0x42000, 5120, [(0x40000, 4096), (0x41000, 4096)]) ∧
    (deliver cfg_two_sectors env_ok world_start
        (List.replicate 6 ⟨1024, false, 0x2000⟩)).map
        (fun r => erased_sectors r.2.trace) =
      some [(0x40000, 4096), (0x41000, 4096), (0x42000, 4096)] ∧
    ¬ sector_in_bank cfg_two_sectors 0x42000 4096 := by
  refine ⟨by decide, by decide, by decide, by decide!, by decide!, by decide, by decide!,
    by decide!, by decide!, by decide⟩

end Fota
